import Mathlib

/-! # Mini site builder: generation pipeline and editor reordering

A shallow embedding of `project/server.js` (the `/api/create-site` handler with
`esc`, `buildHTML`, `buildCSS`, `buildClientJS`) and of the list operations of
`public/app.js` (`reorder`), followed by the properties proved about them.

Conventions of the embedding.

* A JavaScript string is a list of characters (`Str`).  Every character the code
  inspects (`&`, `<`, `>`, `-`, `a-z`, `0-9`) is a single UTF-16 unit, so working
  with code points instead of code units changes none of the results below.
* A property that may be absent from a JSON record is an `Option`; `none` is
  `undefined`.
* `Date.now()`, `new Date().getFullYear()`, `nanoid(4)`, the port, `__dirname`,
  which paths exist on the disk and the failure of a filesystem call are inputs
  (`Env`).
* A path is the string handed to the filesystem; `path.join` is the POSIX one,
  with its normalisation of `.`, `..` and repeated separators.
* Filesystem calls are recorded, in order, as a list of `FsOp`.
-/

namespace SiteBuilder

/-- A JavaScript string. -/
abbrev Str := List Char

/-! ## JavaScript values and built-ins -/

/-- A value found in a parsed JSON request body (or `undefined` for a missing
property).  A number is carried by its `Number.prototype.toString()` rendering
(the falsy numbers `0`, `-0` and `NaN` render as `0`, `0` and `NaN`).  An object
or array is carried by the result of calling its `toString()`: `none` when the
call throws (an own, non-callable `toString` property). -/
inductive JSVal where
  | undefined
  | null
  | bool (b : Bool)
  | number (shown : Str)
  | string (s : Str)
  | object (str : Option Str)
  deriving DecidableEq, Repr

/-- JavaScript truthiness (`!!v`). -/
def truthy : JSVal → Bool
  | .undefined => false
  | .null => false
  | .bool b => b
  | .number shown => !(shown == "0".toList || shown == "NaN".toList)
  | .string s => !s.isEmpty
  | .object _ => true

/-- The method call `v.toString()`; `none` is a thrown `TypeError`. -/
def toStringMethod : JSVal → Option Str
  | .undefined => none
  | .null => none
  | .bool b => some (if b then "true".toList else "false".toList)
  | .number shown => some shown
  | .string s => some s
  | .object str => str

/-- The expression `x || ''` for an optional string property. -/
def orEmpty : Option Str → Str
  | some s => s
  | none => []

/-- Truthiness of an optional string property: present and non-empty. -/
def present : Option Str → Bool
  | some s => !s.isEmpty
  | none => false

/-- Global replacement `s.replace(/c/g, r)` for a one-character pattern `c`: every occurrence of
`c`, left to right, is replaced by `r`. -/
def replaceAll (c : Char) (r : Str) : Str → Str
  | [] => []
  | x :: xs => if x = c then r ++ replaceAll c r xs else x :: replaceAll c r xs

/-- The method `Array.prototype.join(sep)` on an array of strings. -/
def join (sep : Str) : List Str → Str
  | [] => []
  | [x] => x
  | x :: y :: rest => x ++ sep ++ join sep (y :: rest)

/-- The digit characters of `Number.prototype.toString(radix)`, `0-9a-z`. -/
def digitChar (d : Nat) : Char :=
  if d < 10 then Char.ofNat (48 + d) else Char.ofNat (87 + d)

/-- Digits of `n` in base `radix`, most significant first, pushed in front of
`acc`; `fuel` bounds the number of digits. -/
def toDigitsAux (radix : Nat) : Nat → Nat → Str → Str
  | 0, _, acc => acc
  | fuel + 1, n, acc =>
    if n / radix = 0 then digitChar (n % radix) :: acc
    else toDigitsAux radix fuel (n / radix) (digitChar (n % radix) :: acc)

/-- The call `n.toString(radix)` for a non-negative integer `n`. -/
def numToString (radix n : Nat) : Str :=
  toDigitsAux radix (n + 1) n []

/-! ## server.js: escaping and templates -/

/-- The function `esc(s)` (server.js 116-121) on a string: three global replacements, in the
order of the source. -/
def esc (s : Str) : Str :=
  replaceAll '>' "&gt;".toList
    (replaceAll '<' "&lt;".toList
      (replaceAll '&' "&amp;".toList s))

/-- A block record of the request: `{type, text, alt, filename, src}`. -/
structure Block where
  type : Option Str := none
  text : Option Str := none
  alt : Option Str := none
  filename : Option Str := none
  src : Option Str := none
  deriving DecidableEq, Repr

/-- The callback of `blocks.map` in `buildHTML` (server.js 124-136). -/
def renderBlock (b : Block) : Str :=
  if b.type = some "h1".toList then
    "<h1 class=\"block block-h1\">".toList ++ esc (orEmpty b.text) ++ "</h1>".toList
  else if b.type = some "p".toList then
    "<p class=\"block block-p\">".toList ++ esc (orEmpty b.text) ++ "</p>".toList
  else if b.type = some "image".toList then
    let alt := esc (orEmpty b.alt)
    let src := esc (orEmpty b.src)
    "<figure class=\"block block-img\"><img src=\"".toList ++ src ++ "\" alt=\"".toList ++ alt
      ++ "\"><figcaption>".toList ++ alt ++ "</figcaption></figure>".toList
  else
    []

/-- Page template up to the first `esc(title)`. -/
def pageA : Str :=
  ("<!doctype html>\n" ++
   "<html lang=\"ru\">\n" ++
   "<head>\n" ++
   "  <meta charset=\"utf-8\"/>\n" ++
   "  <meta name=\"viewport\" content=\"width=device-width,initial-scale=1\"/>\n" ++
   "  <title>").toList

/-- Page template between the title and the theme. -/
def pageB : Str :=
  ("</title>\n" ++
   "  <link rel=\"stylesheet\" href=\"./styles.css\"/>\n" ++
   "</head>\n" ++
   "<body class=\"theme-").toList

/-- Page template between the theme and the second `esc(title)`. -/
def pageC : Str :=
  ("\">\n" ++
   "  <header class=\"site-header\">\n" ++
   "    <div class=\"container\">\n" ++
   "      <a class=\"site-brand\" href=\"./index.html\">").toList

/-- Page template between the second title and the body. -/
def pageD : Str :=
  ("</a>\n" ++
   "      <nav class=\"site-nav\">\n" ++
   "        <a href=\"./index.html\">Главная</a>\n" ++
   "      </nav>\n" ++
   "    </div>\n" ++
   "  </header>\n" ++
   "\n" ++
   "  <main class=\"container\">\n").toList

/-- Page template between the body and the year. -/
def pageE : Str :=
  ("\n" ++
   "  </main>\n" ++
   "\n" ++
   "  <footer class=\"site-footer\">\n" ++
   "    <div class=\"container\">© ").toList

/-- Page template after the year. -/
def pageF : Str :=
  (" — Сайт создан в мини-конструкторе</div>\n" ++
   "  </footer>\n" ++
   "\n" ++
   "  <script src=\"./script.js\"></script>\n" ++
   "</body>\n" ++
   "</html>").toList

/-- The value of `theme || 'light'`. -/
def themeOrLight (theme : Option Str) : Str :=
  if present theme then orEmpty theme else "light".toList

/-- The function `buildHTML({title, theme, blocks})` (server.js 123-167).  `year` is
`new Date().getFullYear()`; `title` is the string form of the request's title
(`String(title)`, which for a title that passed `title.toString()` is that same
string). -/
def buildHTML (year : Nat) (title : Str) (theme : Option Str) (blocks : List Block) : Str :=
  let body := join "\n".toList (blocks.map renderBlock)
  pageA ++ esc title ++ pageB ++ esc (themeOrLight theme) ++ pageC ++ esc title ++ pageD
    ++ body ++ pageE ++ numToString 10 year ++ pageF

/-- The function `buildCSS(theme)` (server.js 169-190); the argument is not used by the
source either. -/
def buildCSS (_theme : Option Str) : Str :=
  (":root\x7b\n" ++
   "  --bg:#ffffff;--text:#111111;--muted:#6b7280;--brand:#2563eb;--card:#f9fafb;--border:#e5e7eb;\n" ++
   "\x7d\n" ++
   ".theme-dark\x7b--bg:#0b0f19;--text:#e5e7eb;--muted:#9aa4b2;--brand:#60a5fa;--card:#0f172a;--border:#1f2937;\x7d\n" ++
   "*\x7bbox-sizing:border-box\x7d\n" ++
   "html,body\x7bmargin:0;padding:0\x7d\n" ++
   "body\x7bbackground:var(--bg);color:var(--text);font:16px/1.6 system-ui,-apple-system,Segoe UI,Roboto,Arial,sans-serif\x7d\n" ++
   ".container\x7bmax-width:960px;margin:0 auto;padding:16px\x7d\n" ++
   ".site-header,.site-footer\x7bborder-bottom:1px solid var(--border);border-top:1px solid var(--border);background:var(--card)\x7d\n" ++
   ".site-brand\x7bfont-weight:700;text-decoration:none;color:var(--text)\x7d\n" ++
   ".site-nav a\x7bmargin-left:12px;text-decoration:none;color:var(--brand)\x7d\n" ++
   ".block\x7bmargin:20px 0\x7d\n" ++
   ".block-h1\x7bfont-size:2rem;line-height:1.2;margin:32px 0 16px\x7d\n" ++
   ".block-p\x7bfont-size:1rem;color:var(--text)\x7d\n" ++
   ".block-img\x7bmargin:24px 0;text-align:center\x7d\n" ++
   ".block-img img\x7bmax-width:100%;border-radius:12px;border:1px solid var(--border)\x7d\n" ++
   "figcaption\x7bfont-size:.875rem;color:var(--muted);margin-top:6px\x7d\n" ++
   "button,a.btn\x7bcursor:pointer;display:inline-block;padding:10px 14px;border-radius:12px;border:1px solid var(--border);background:var(--card);text-decoration:none;color:var(--text)\x7d\n" ++
   "a.btn-primary,button.btn-primary\x7bbackground:var(--brand);color:#fff;border-color:var(--brand)\x7d\n").toList

/-- The function `buildClientJS()` (server.js 192-194). -/
def buildClientJS : Str :=
  "// тут можно добавить интерактив для готового сайта при желании".toList

/-! ## server.js: slug and site identifier -/

/-- The character class `[a-z0-9]`. -/
def isAlnum (c : Char) : Bool :=
  ('a' ≤ c && c ≤ 'z') || ('0' ≤ c && c ≤ '9')

/-- Lower-case form of one character.  The table holds every character whose
Unicode lower-case form contains an ASCII letter (`A-Z`, U+0130, U+212A) and the
basic Cyrillic capitals; any other character is kept.  The characters left out
have lower-case forms without ASCII letters or digits, and the slug derivation
only distinguishes `[a-z0-9]` from the rest. -/
def lowerChar (c : Char) : Str :=
  if 'A' ≤ c ∧ c ≤ 'Z' then [Char.ofNat (c.toNat + 32)]
  else if c = Char.ofNat 0x130 then ['i', Char.ofNat 0x307]
  else if c = Char.ofNat 0x212A then ['k']
  else if Char.ofNat 0x410 ≤ c ∧ c ≤ Char.ofNat 0x42F then [Char.ofNat (c.toNat + 32)]
  else if Char.ofNat 0x400 ≤ c ∧ c ≤ Char.ofNat 0x40F then [Char.ofNat (c.toNat + 80)]
  else [c]

/-- The call `s.toLowerCase()`. -/
def toLowerCase (s : Str) : Str :=
  s.flatMap lowerChar

/-- The call `s.replace(/[^a-z0-9]+/g, '-')`, scanning left to right; `inRun` tells that
the previous character belonged to a run that has already been replaced. -/
def replaceRuns : Bool → Str → Str
  | _, [] => []
  | inRun, c :: cs =>
    if isAlnum c then c :: replaceRuns false cs
    else if inRun then replaceRuns true cs
    else '-' :: replaceRuns true cs

/-- Removal of a match of `-$`: a hyphen that is the last character. -/
def dropLastHyphen : Str → Str
  | [] => []
  | [c] => if c = '-' then [] else [c]
  | c :: d :: rest => c :: dropLastHyphen (d :: rest)

/-- The call `s.replace(/(^-|-$)/g, '')`: the hyphen at index 0, if any, is removed, and
then the hyphen at the last index, if any is left there. -/
def trimHyphens : Str → Str
  | '-' :: rest => dropLastHyphen rest
  | s => dropLastHyphen s

/-- The chain `.toLowerCase().replace(...).replace(...).slice(0, 40) || 'site'`
of server.js 66-69, applied to `(title || 'site').toString()`. -/
def slugOf (t : Str) : Str :=
  let s := (trimHyphens (replaceRuns false (toLowerCase t))).take 40
  if s.isEmpty then "site".toList else s

/-- The constant `slugBase` (server.js 64-69); `none` when `toString()` throws. -/
def slugBase (title : JSVal) : Option Str :=
  (toStringMethod (if truthy title then title else JSVal.string "site".toList)).map slugOf

/-- The constant `siteId` (server.js 71) from the slug, `Date.now()` and `nanoid(4)`. -/
def siteId (slug : Str) (now : Nat) (nano : Str) : Str :=
  slug ++ "-".toList ++ numToString 36 now ++ "-".toList ++ nano

/-! ## Node: `path.join` on POSIX -/

/-- A path, as the string Node passes to the filesystem. -/
abbrev Path := Str

/-- The segments of a path between its separators (`p.split('/')`). -/
def splitSlash : Str → List Str
  | [] => [[]]
  | c :: cs =>
    if c = '/' then [] :: splitSlash cs
    else
      match splitSlash cs with
      | seg :: rest => (c :: seg) :: rest
      | [] => [[c]]

/-- The segment loop of `normalizeString` in Node's `path` module: an empty
segment and `.` are skipped, `..` removes the segment before it (at the start
it is kept when `allowAboveRoot`, dropped otherwise), any other segment is
kept.  `acc` holds the kept segments, last one first. -/
def resolveSegs (allowAboveRoot : Bool) : List Str → List Str → List Str
  | acc, [] => acc.reverse
  | acc, seg :: rest =>
    if seg = [] ∨ seg = ".".toList then resolveSegs allowAboveRoot acc rest
    else if seg = "..".toList then
      match acc with
      | top :: below =>
        if top = "..".toList then
          resolveSegs allowAboveRoot (if allowAboveRoot then seg :: acc else acc) rest
        else resolveSegs allowAboveRoot below rest
      | [] => resolveSegs allowAboveRoot (if allowAboveRoot then [seg] else []) rest
    else resolveSegs allowAboveRoot (seg :: acc) rest

/-- The function `path.normalize(p)` (POSIX). -/
def normalize (p : Str) : Str :=
  if p.isEmpty then ".".toList
  else
    let isAbsolute : Bool := p.head? == some '/'
    let trailing : Bool := p.getLast? == some '/'
    let body := join "/".toList (resolveSegs (!isAbsolute) [] (splitSlash p))
    if body.isEmpty then
      (if isAbsolute then "/".toList else if trailing then "./".toList else ".".toList)
    else
      (if isAbsolute then "/".toList else []) ++ body ++ (if trailing then "/".toList else [])

/-- The function `path.join(a, b)` (POSIX): the non-empty arguments are joined
with `/` and the result is normalised. -/
def pathJoin (a b : Str) : Path :=
  let joined := if a.isEmpty then b else if b.isEmpty then a else a ++ "/".toList ++ b
  if joined.isEmpty then ".".toList else normalize joined

/-! ## server.js: the create-site handler -/

/-- A filesystem call of the handler that changes the disk. -/
inductive FsOp where
  | ensureDir (dir : Path)
  | copy (src dst : Path)
  | writeFile (file : Path) (content : Str)
  deriving DecidableEq, Repr

/-- What the handler reads from its surroundings. -/
structure Env where
  /-- The value of `__dirname` (`ROOT`), an absolute path. -/
  root : Path
  /-- The listening port. -/
  port : Nat
  /-- The value of `Date.now()`. -/
  now : Nat
  /-- The value of `new Date().getFullYear()`. -/
  year : Nat
  /-- The value of `nanoid(4)`. -/
  nano : Str
  /-- Whether a path can be accessed on the disk. -/
  onDisk : Path → Bool
  /-- Whether a filesystem call rejects. -/
  fails : FsOp → Bool

/-- The `blocks` property of the request body. -/
inductive BlocksField where
  | notArray
  | array (blocks : List Block)
  deriving DecidableEq, Repr

/-- The request body `{title, theme, blocks}`; a missing body (`req.body || {}`)
has all three `undefined`. -/
structure Request where
  title : JSVal
  theme : Option Str
  blocks : BlocksField

/-- The JSON sent back. -/
inductive Reply where
  | ok (url siteId : Str)
  | error (message : Str)
  deriving DecidableEq, Repr

/-- Result of one request: status, JSON reply and the filesystem calls that
were carried out, in order. -/
structure Outcome where
  status : Nat
  reply : Reply
  effects : List FsOp
  deriving DecidableEq, Repr

/-- The constant `SITES_DIR` (server.js 29). -/
def SITES_DIR (env : Env) : Path := pathJoin env.root "sites".toList

/-- The constant `UPLOADS_DIR` (server.js 30). -/
def UPLOADS_DIR (env : Env) : Path := pathJoin env.root "uploads".toList

/-- The test `fse.pathExists(p)`: the path can be accessed. -/
def pathExists (env : Env) (p : Path) : Bool :=
  env.onDisk p

/-- One awaited filesystem call: it is appended to the log, or it rejects and
the log so far is thrown. -/
def perform (env : Env) (op : FsOp) (log : List FsOp) : Except (List FsOp) (List FsOp) :=
  if env.fails op then .error log else .ok (log ++ [op])

/-- The copy loop (server.js 79-86): returns the blocks with `src` set and the
extended log. -/
def copyImages (env : Env) (assetsDir : Path) :
    List Block → List FsOp → Except (List FsOp) (List Block × List FsOp)
  | [], log => .ok ([], log)
  | b :: bs, log =>
    if b.type = some "image".toList ∧ present b.filename = true then
      let name := orEmpty b.filename
      let src := pathJoin (UPLOADS_DIR env) name
      let dst := pathJoin assetsDir name
      match (if pathExists env src then perform env (.copy src dst) log else .ok log) with
      | .error l => .error l
      | .ok log1 =>
        match copyImages env assetsDir bs log1 with
        | .error l => .error l
        | .ok (bs1, log2) => .ok ({ b with src := some ("./assets/".toList ++ name) } :: bs1, log2)
    else
      match copyImages env assetsDir bs log with
      | .error l => .error l
      | .ok (bs1, log1) => .ok (b :: bs1, log1)

/-- The body of the `try` block (server.js 64-99) once validation has passed. -/
def generate (env : Env) (title : JSVal) (theme : Option Str) (blocks : List Block) :
    Except (List FsOp) Outcome :=
  match slugBase title, toStringMethod title with
  | some slug, some t =>
    let id := siteId slug env.now env.nano
    let siteDir := pathJoin (SITES_DIR env) id
    let assetsDir := pathJoin siteDir "assets".toList
    match perform env (.ensureDir siteDir) [] with
    | .error l => .error l
    | .ok log1 =>
    match perform env (.ensureDir assetsDir) log1 with
    | .error l => .error l
    | .ok log2 =>
    match copyImages env assetsDir blocks log2 with
    | .error l => .error l
    | .ok (blocks1, log3) =>
    let html := buildHTML env.year t theme blocks1
    let css := buildCSS theme
    let js := buildClientJS
    match perform env (.writeFile (pathJoin siteDir "index.html".toList) html) log3 with
    | .error l => .error l
    | .ok log4 =>
    match perform env (.writeFile (pathJoin siteDir "styles.css".toList) css) log4 with
    | .error l => .error l
    | .ok log5 =>
    match perform env (.writeFile (pathJoin siteDir "script.js".toList) js) log5 with
    | .error l => .error l
    | .ok log6 =>
    let url := "http://localhost:".toList ++ numToString 10 env.port ++ "/sites/".toList ++ id
      ++ "/index.html".toList
    .ok { status := 200, reply := .ok url id, effects := log6 }
  | _, _ => .error []

/-- The handler `app.post('/api/create-site')` (server.js 57-104). -/
def createSite (env : Env) (req : Request) : Outcome :=
  match truthy req.title, req.blocks with
  | true, .array blocks =>
    match generate env req.title req.theme blocks with
    | .ok out => out
    | .error log =>
      { status := 500, reply := .error "Ошибка создания сайта".toList, effects := log }
  | _, _ => { status := 400, reply := .error "Некорректные данные".toList, effects := [] }

/-! ## app.js: the editor's block list -/

/-- A block of the editor: `{id, type, text?, alt?, filename?, preview?}`. -/
structure EditorBlock where
  id : Str
  type : Str
  text : Option Str := none
  alt : Option Str := none
  filename : Option Str := none
  preview : Option Str := none
  deriving DecidableEq, Repr

/-- The method `Array.prototype.findIndex`: the first index satisfying `p`, or `-1`. -/
def findIndex {α : Type} (p : α → Bool) : List α → Int
  | [] => -1
  | x :: xs => if p x then 0 else
    match findIndex p xs with
    | Int.negSucc _ => -1
    | Int.ofNat i => Int.ofNat (i + 1)

/-- The method `Array.prototype.splice(start, deleteCount, ...items)`: the array after the
call and the array of removed elements.  A negative `start` counts from the end
and is clamped to `0`; a `start` beyond the end is clamped to the length. -/
def splice {α : Type} (l : List α) (start : Int) (deleteCount : Nat) (items : List α) :
    List α × List α :=
  let len := l.length
  let s : Nat := if start < 0 then (Int.ofNat len + start).toNat else min start.toNat len
  let k : Nat := min deleteCount (len - s)
  (l.take s ++ items ++ l.drop (s + k), (l.drop s).take k)

/-- The function `reorder(fromId, toId)` (app.js 87-94) as a function on the block list.  An
element of the result is `none` where the source stores `undefined` (the
destructured `item` of an empty removal). -/
def reorder (blocks : List EditorBlock) (fromId toId : Str) : List (Option EditorBlock) :=
  if fromId = toId then blocks.map some
  else
    let fromIdx := findIndex (fun b => b.id == fromId) blocks
    let toIdx := findIndex (fun b => b.id == toId) blocks
    let (rest, removed) := splice (blocks.map some) fromIdx 1 []
    let item : Option EditorBlock := (removed.head?).join
    (splice rest toIdx 0 [item]).1

/-! ## Definitions used to state the properties -/

/-- One of the entities written by `esc` starts at index `i` of `l`. -/
def EntityAt (l : Str) (i : Nat) : Prop :=
  "&amp;".toList <+: l.drop i ∨ "&lt;".toList <+: l.drop i ∨ "&gt;".toList <+: l.drop i

/-- Every `&` of `l` is the first character of `&amp;`, `&lt;` or `&gt;`. -/
def AmpsEscaped (l : Str) : Prop :=
  ∀ i, l[i]? = some '&' → EntityAt l i

/-- What `esc` writes for one character. -/
def escChar (c : Char) : Str :=
  if c = '&' then "&amp;".toList
  else if c = '<' then "&lt;".toList
  else if c = '>' then "&gt;".toList
  else [c]

/-- Number of tags `renderBlock` writes for a block: 2 for `h1` and `p`, 5 for
`image` (`figure`, `img`, `figcaption` and two closing tags), 0 otherwise. -/
def tagCount (b : Block) : Nat :=
  if b.type = some "h1".toList ∨ b.type = some "p".toList then 2
  else if b.type = some "image".toList then 5
  else 0

/-- The block with every rendered value (`text`, `alt`, `src`) empty. -/
def blank (b : Block) : Block :=
  { b with text := some [], alt := some [], src := some [] }

/-- No two neighbouring characters of `s` are both hyphens. -/
def NoDoubleHyphen (s : Str) : Prop :=
  s.Chain' (fun a b => ¬ (a = '-' ∧ b = '-'))

/-- Value of a digit character written by `digitChar`. -/
def digitVal (c : Char) : Nat :=
  if c.toNat < 58 then c.toNat - 48 else c.toNat - 87

/-- Value in base `radix` of a string of digit characters. -/
def numVal (radix : Nat) (s : Str) : Nat :=
  s.foldl (fun a c => a * radix + digitVal c) 0

/-- The block after the copy loop: an image block with a non-empty filename
has `src` set to `./assets/<filename>`, any other block is untouched. -/
def withSrc (b : Block) : Block :=
  if b.type = some "image".toList ∧ present b.filename = true then
    { b with src := some ("./assets/".toList ++ orEmpty b.filename) }
  else b

/-- A name that an entry of a directory can have: non-empty, without a
separator, and neither `.` nor `..`. -/
def entryName (name : Str) : Bool :=
  !name.isEmpty && !name.contains '/' && name != ".".toList && name != "..".toList

/-- The block is an image block whose filename is the name of an entry of the
uploads directory. -/
def namesUpload (env : Env) (b : Block) : Bool :=
  decide (b.type = some "image".toList) &&
    (match b.filename with
     | some name => entryName name && env.onDisk (UPLOADS_DIR env ++ "/".toList ++ name)
     | none => false)

/-- The call `fse.copy(src, dst)` of the copy loop for a block. -/
def copyOp (env : Env) (assetsDir : Path) (b : Block) : FsOp :=
  .copy (pathJoin (UPLOADS_DIR env) (orEmpty b.filename)) (pathJoin assetsDir (orEmpty b.filename))

/-- The condition under which the copy loop calls `fse.copy` for a block. -/
def copied (env : Env) (b : Block) : Bool :=
  decide (b.type = some "image".toList ∧ present b.filename = true) &&
    pathExists env (pathJoin (UPLOADS_DIR env) (orEmpty b.filename))

/-- The paths a filesystem call touches. -/
def touched : FsOp → List Path
  | .ensureDir dir => [dir]
  | .copy src dst => [src, dst]
  | .writeFile file _ => [file]

/-- The directory of the site with identifier `id`. -/
def siteDirOf (env : Env) (id : Str) : Path := pathJoin (SITES_DIR env) id

/-- The URL reported for the site with identifier `id`. -/
def urlOf (port : Nat) (id : Str) : Str :=
  "http://localhost:".toList ++ numToString 10 port ++ "/sites/".toList ++ id
    ++ "/index.html".toList

/-- An environment for the examples: the server lives in `/srv/app`, listens on
port 3000, the uploads directory holds the one file `a.png`, and no filesystem
call fails. -/
def exampleEnv : Env :=
  { root := "/srv/app".toList
    port := 3000
    now := 1700000000000
    year := 2026
    nano := "V1St".toList
    onDisk := fun p =>
      ["/srv/app".toList, "/srv/app/server.js".toList, "/srv/app/public".toList,
       "/srv/app/sites".toList, "/srv/app/uploads".toList,
       "/srv/app/uploads/a.png".toList].contains p
    fails := fun _ => false }

/-- A request with one uploaded image, one image that was never uploaded and a
heading. -/
def exampleRequest : Request :=
  { title := .string "My site".toList
    theme := some "light".toList
    blocks := .array
      [{ type := some "image".toList, filename := some "a.png".toList, alt := some "A".toList },
       { type := some "image".toList, filename := some "missing.png".toList },
       { type := some "h1".toList, text := some "Hi".toList }] }

/-- A request whose image block has the filename `../server.js`. -/
def traversalRequest : Request :=
  { title := .string "My site".toList
    theme := some "light".toList
    blocks := .array [{ type := some "image".toList, filename := some "../server.js".toList }] }

/-- A request whose image block has the filename `.`. -/
def dotRequest : Request :=
  { title := .string "My site".toList
    theme := some "light".toList
    blocks := .array [{ type := some "image".toList, filename := some ".".toList }] }

/-- The markup `html` holds a `body` start tag whose class attribute is `cls`:
the tag is written with `cls` between the quotes, and `cls` holds no double
quote that would end the attribute earlier. -/
def BodyClass (html cls : Str) : Prop :=
  '"' ∉ cls ∧ ("<body class=\"".toList ++ cls ++ "\">".toList) <:+: html

/-- The markup holds an `img` tag whose src attribute is `v`: the tag is
written with `v` between the quotes, and `v` holds no double quote. -/
def ImgSrc (markup v : Str) : Prop :=
  '"' ∉ v ∧ ("<img src=\"".toList ++ v ++ "\"".toList) <:+: markup

/-- The request of the specification's round trip: a heading, a paragraph and
the uploaded image `a.png` with caption `cap`, theme `dark`. -/
def roundTripRequest : Request :=
  { title := .string "My site".toList
    theme := some "dark".toList
    blocks := .array
      [{ type := some "h1".toList, text := some "Hello".toList },
       { type := some "p".toList, text := some "World".toList },
       { type := some "image".toList, filename := some "a.png".toList,
         alt := some "cap".toList }] }

/-- The round-trip request with the empty string as theme. -/
def emptyThemeRequest : Request :=
  { roundTripRequest with theme := some [] }

/-- A request whose theme and whose image filename hold an ampersand. -/
def ampRequest : Request :=
  { title := .string "My site".toList
    theme := some "a&b".toList
    blocks := .array
      [{ type := some "image".toList, filename := some "a&b.png".toList,
         alt := some "cap".toList }] }

/-- Search for `p` as a contiguous part of a string. -/
def hasInfix (p : Str) : Str → Bool
  | [] => p.isEmpty
  | c :: cs => p.isPrefixOf (c :: cs) || hasInfix p cs

/-- The markup written for `emptyThemeRequest`. -/
def emptyThemeHTML : Str :=
  buildHTML 2026 "My site".toList (some [])
    [{ type := some "h1".toList, text := some "Hello".toList },
     { type := some "p".toList, text := some "World".toList },
     { type := some "image".toList, filename := some "a.png".toList,
       alt := some "cap".toList, src := some "./assets/a.png".toList }]

/-- The markup written for `ampRequest`. -/
def ampHTML : Str :=
  buildHTML 2026 "My site".toList (some "a&b".toList)
    [{ type := some "image".toList, filename := some "a&b.png".toList,
       alt := some "cap".toList, src := some "./assets/a&b.png".toList }]

/-- The markup of the three blocks of the round trip. -/
def roundTripBody : Str :=
  ("<h1 class=\"block block-h1\">Hello</h1>\n" ++
   "<p class=\"block block-p\">World</p>\n" ++
   "<figure class=\"block block-img\"><img src=\"./assets/a.png\" alt=\"cap\">" ++
   "<figcaption>cap</figcaption></figure>").toList

/-- The dark theme's override block of the stylesheet. -/
def darkOverride : Str :=
  (".theme-dark\x7b--bg:#0b0f19;--text:#e5e7eb;--muted:#9aa4b2;--brand:#60a5fa;" ++
   "--card:#0f172a;--border:#1f2937;\x7d").toList

/-- The blocks at positions `i` and `j` of `blocks` have exchanged their places
in `out`, and every other block is where it was. -/
def IsSwap (blocks out : List EditorBlock) (i j : Nat) : Prop :=
  out[j]? = blocks[i]? ∧ out[i]? = blocks[j]? ∧ ∀ k, k ≠ i → k ≠ j → out[k]? = blocks[k]?

/-- The list after the element at position `i` has been taken out and put back
at position `j`. -/
def moved (blocks : List EditorBlock) (i j : Nat) : List EditorBlock :=
  match blocks[i]? with
  | some b =>
    (blocks.take i ++ blocks.drop (i + 1)).take j ++ [b]
      ++ (blocks.take i ++ blocks.drop (i + 1)).drop j
  | none => blocks

/-- Three editor blocks with ids `a`, `b`, `c`. -/
def threeBlocks : List EditorBlock :=
  [{ id := "a".toList, type := "h1".toList, text := some "A".toList },
   { id := "b".toList, type := "p".toList, text := some "B".toList },
   { id := "c".toList, type := "p".toList, text := some "C".toList }]

/-! ## Escaping -/

theorem replaceAll_append (c : Char) (r a b : Str) :
    replaceAll c r (a ++ b) = replaceAll c r a ++ replaceAll c r b := by
  induction a with
  | nil => rfl
  | cons x xs ih =>
    by_cases hx : x = c
    · simp [replaceAll, hx, ih]
    · simp [replaceAll, hx, ih]

theorem esc_nil : esc [] = [] := rfl

theorem esc_cons (c : Char) (s : Str) : esc (c :: s) = escChar c ++ esc s := by
  unfold esc escChar
  by_cases h1 : c = '&'
  · subst h1
    simp only [replaceAll, if_true, replaceAll_append]
    rfl
  · by_cases h2 : c = '<'
    · subst h2
      simp only [replaceAll, if_neg h1, if_true, replaceAll_append]
      rfl
    · by_cases h3 : c = '>'
      · subst h3
        simp only [replaceAll, if_neg h1, if_neg h2, if_true]
      · simp only [replaceAll, if_neg h1, if_neg h2, if_neg h3]
        rfl

theorem esc_append (a b : Str) : esc (a ++ b) = esc a ++ esc b := by
  induction a with
  | nil => rfl
  | cons x xs ih => simp [esc_cons, ih]

theorem not_mem_escChar (c x : Char) (hx : x = '<' ∨ x = '>') : x ∉ escChar c := by
  unfold escChar
  rcases hx with rfl | rfl
  · split_ifs with h1 h2 h3
    · decide
    · decide
    · decide
    · simpa using fun h => h2 h.symm
  · split_ifs with h1 h2 h3
    · decide
    · decide
    · decide
    · simpa using fun h => h3 h.symm

theorem not_mem_esc (s : Str) (x : Char) (hx : x = '<' ∨ x = '>') : x ∉ esc s := by
  induction s with
  | nil => simp [esc_nil]
  | cons c cs ih =>
    rw [esc_cons]
    simp only [List.mem_append, not_or]
    exact ⟨not_mem_escChar c x hx, ih⟩

theorem ampsEscaped_nil : AmpsEscaped [] := by
  intro i h
  simp at h

theorem ampsEscaped_of_not_mem {l : Str} (h : '&' ∉ l) : AmpsEscaped l := by
  intro i hi
  exact absurd (List.getElem?_mem hi) h

theorem ampsEscaped_append {a b : Str} (ha : AmpsEscaped a) (hb : AmpsEscaped b) :
    AmpsEscaped (a ++ b) := by
  intro i hi
  by_cases hlt : i < a.length
  · rw [List.getElem?_append_left hlt] at hi
    have h := ha i hi
    unfold EntityAt at h ⊢
    rw [List.drop_append_of_le_length (le_of_lt hlt)]
    rcases h with h | h | h
    · exact Or.inl (h.trans (List.prefix_append _ _))
    · exact Or.inr (Or.inl (h.trans (List.prefix_append _ _)))
    · exact Or.inr (Or.inr (h.trans (List.prefix_append _ _)))
  · have hle : a.length ≤ i := Nat.le_of_not_lt hlt
    rw [List.getElem?_append_right hle] at hi
    have h := hb _ hi
    unfold EntityAt at h ⊢
    have hd : (a ++ b).drop i = b.drop (i - a.length) := by
      rw [List.drop_append_eq_append_drop, List.drop_of_length_le hle]
      rfl
    rw [hd]
    exact h

theorem ampsEscaped_entity (t : Str) (ht : '&' ∉ t) (h0 : EntityAt ('&' :: t) 0) :
    AmpsEscaped ('&' :: t) := by
  intro i hi
  cases i with
  | zero => exact h0
  | succ j =>
    simp only [List.getElem?_cons_succ] at hi
    exact absurd (List.getElem?_mem hi) ht

theorem ampsEscaped_escChar (c : Char) : AmpsEscaped (escChar c) := by
  unfold escChar
  split_ifs with h1 h2 h3
  · exact ampsEscaped_entity _ (by decide) (Or.inl (by simp))
  · exact ampsEscaped_entity _ (by decide) (Or.inr (Or.inl (by simp)))
  · exact ampsEscaped_entity _ (by decide) (Or.inr (Or.inr (by simp)))
  · exact ampsEscaped_of_not_mem (by simpa using fun h => h1 h.symm)

theorem ampsEscaped_esc (s : Str) : AmpsEscaped (esc s) := by
  induction s with
  | nil => exact ampsEscaped_nil
  | cons c cs ih =>
    rw [esc_cons]
    exact ampsEscaped_append (ampsEscaped_escChar c) ih

theorem esc_eq_self (s : Str) (h : ∀ c ∈ s, c ≠ '&' ∧ c ≠ '<' ∧ c ≠ '>') : esc s = s := by
  induction s with
  | nil => rfl
  | cons c cs ih =>
    have hc := h c (List.mem_cons_self _ _)
    rw [esc_cons, ih (fun x hx => h x (List.mem_cons_of_mem _ hx))]
    simp [escChar, hc.1, hc.2.1, hc.2.2]

/-- C1: for every string `s`, `esc s` contains no `<` and no `>`, every `&` of
`esc s` is the first character of `&amp;`, `&lt;` or `&gt;`, and a string
without `&`, `<` and `>` is returned unchanged. -/
theorem esc_output_is_escaped (s : Str) :
    '<' ∉ esc s ∧ '>' ∉ esc s ∧
    (∀ i, (esc s)[i]? = some '&' → EntityAt (esc s) i) ∧
    ((∀ c ∈ s, c ≠ '&' ∧ c ≠ '<' ∧ c ≠ '>') → esc s = s) :=
  ⟨not_mem_esc s '<' (Or.inl rfl), not_mem_esc s '>' (Or.inr rfl), ampsEscaped_esc s,
    esc_eq_self s⟩

/-! ## Number rendering -/

theorem mem_toDigitsAux (radix : Nat) (hr : 0 < radix) (fuel n : Nat) (acc : Str) (c : Char)
    (hc : c ∈ toDigitsAux radix fuel n acc) : c ∈ acc ∨ ∃ d, d < radix ∧ c = digitChar d := by
  induction fuel generalizing n acc with
  | zero => exact Or.inl hc
  | succ k ih =>
    unfold toDigitsAux at hc
    split_ifs at hc with h0
    · rcases List.mem_cons.mp hc with h | h
      · exact Or.inr ⟨n % radix, Nat.mod_lt _ hr, h⟩
      · exact Or.inl h
    · rcases ih _ _ hc with h | h
      · rcases List.mem_cons.mp h with h | h
        · exact Or.inr ⟨n % radix, Nat.mod_lt _ hr, h⟩
        · exact Or.inl h
      · exact Or.inr h

theorem mem_numToString (radix : Nat) (hr : 0 < radix) (n : Nat) (c : Char)
    (hc : c ∈ numToString radix n) : ∃ d, d < radix ∧ c = digitChar d := by
  rcases mem_toDigitsAux radix hr _ _ _ c hc with h | h
  · simp at h
  · exact h

theorem digitChar_plain : ∀ d, d < 36 →
    digitChar d ≠ '<' ∧ digitChar d ≠ '>' ∧ digitChar d ≠ '&' ∧ digitChar d ≠ '-' := by
  decide

theorem numToString_plain (radix : Nat) (hr : 0 < radix) (h36 : radix ≤ 36) (n : Nat) (c : Char)
    (hc : c ∈ numToString radix n) : c ≠ '<' ∧ c ≠ '>' ∧ c ≠ '&' ∧ c ≠ '-' := by
  obtain ⟨d, hd, rfl⟩ := mem_numToString radix hr n c hc
  exact digitChar_plain d (lt_of_lt_of_le hd h36)

/-! ## The rendered document -/

theorem count_esc (s : Str) (x : Char) (hx : x = '<' ∨ x = '>') : List.count x (esc s) = 0 :=
  List.count_eq_zero_of_not_mem (not_mem_esc s x hx)

theorem count_numToString (n : Nat) (x : Char) (hx : x = '<' ∨ x = '>') :
    List.count x (numToString 10 n) = 0 := by
  apply List.count_eq_zero_of_not_mem
  intro h
  have hp := numToString_plain 10 (by decide) (by decide) n x h
  rcases hx with rfl | rfl
  · exact hp.1 rfl
  · exact hp.2.1 rfl

theorem count_renderBlock (b : Block) (x : Char) (hx : x = '<' ∨ x = '>') :
    List.count x (renderBlock b) = tagCount b := by
  unfold renderBlock tagCount
  by_cases h1 : b.type = some "h1".toList
  · rw [if_pos h1, if_pos (Or.inl h1)]
    simp only [List.count_append, count_esc _ _ hx]
    rcases hx with rfl | rfl <;> decide
  · by_cases h2 : b.type = some "p".toList
    · rw [if_neg h1, if_pos h2, if_pos (Or.inr h2)]
      simp only [List.count_append, count_esc _ _ hx]
      rcases hx with rfl | rfl <;> decide
    · have h12 : ¬ (b.type = some "h1".toList ∨ b.type = some "p".toList) := by
        rintro (h | h)
        · exact h1 h
        · exact h2 h
      by_cases h3 : b.type = some "image".toList
      · rw [if_neg h1, if_neg h2, if_pos h3, if_neg h12, if_pos h3]
        simp only [List.count_append, count_esc _ _ hx]
        rcases hx with rfl | rfl <;> decide
      · rw [if_neg h1, if_neg h2, if_neg h3, if_neg h12, if_neg h3]
        rfl

theorem count_join (x : Char) (sep : Str) (hsep : List.count x sep = 0) (xs : List Str) :
    List.count x (join sep xs) = (xs.map (List.count x)).sum := by
  induction xs with
  | nil => rfl
  | cons a as ih =>
    cases as with
    | nil => simp [join]
    | cons b bs =>
      simp only [join, List.count_append, hsep, ih, List.map_cons, List.sum_cons]
      omega

theorem count_body (x : Char) (hx : x = '<' ∨ x = '>') (blocks : List Block) :
    List.count x (join "\n".toList (blocks.map renderBlock)) = (blocks.map tagCount).sum := by
  rw [count_join x _ (by rcases hx with rfl | rfl <;> decide), List.map_map]
  congr 1
  apply List.map_congr_left
  intro b _
  exact count_renderBlock b x hx

theorem count_buildHTML (year : Nat) (title : Str) (theme : Option Str) (blocks : List Block)
    (x : Char) (hx : x = '<' ∨ x = '>') :
    List.count x (buildHTML year title theme blocks) = 30 + (blocks.map tagCount).sum := by
  have hP : List.count x pageA + List.count x pageB + List.count x pageC + List.count x pageD
      + List.count x pageE + List.count x pageF = 30 := by
    rcases hx with rfl | rfl <;> decide
  simp only [buildHTML, List.count_append, count_esc _ x hx, count_numToString _ x hx,
    count_body x hx]
  omega

theorem tagCount_blank (b : Block) : tagCount (blank b) = tagCount b := rfl

theorem ampsEscaped_join (sep : Str) (hsep : AmpsEscaped sep) (xs : List Str)
    (h : ∀ s ∈ xs, AmpsEscaped s) : AmpsEscaped (join sep xs) := by
  induction xs with
  | nil => exact ampsEscaped_nil
  | cons a as ih =>
    cases as with
    | nil => exact h a (List.mem_cons_self _ _)
    | cons b bs =>
      simp only [join]
      exact ampsEscaped_append
        (ampsEscaped_append (h a (List.mem_cons_self _ _)) hsep)
        (ih (fun s hs => h s (List.mem_cons_of_mem _ hs)))

theorem ampsEscaped_renderBlock (b : Block) : AmpsEscaped (renderBlock b) := by
  unfold renderBlock
  split_ifs
  · exact ampsEscaped_append (ampsEscaped_append (ampsEscaped_of_not_mem (by decide))
      (ampsEscaped_esc _)) (ampsEscaped_of_not_mem (by decide))
  · exact ampsEscaped_append (ampsEscaped_append (ampsEscaped_of_not_mem (by decide))
      (ampsEscaped_esc _)) (ampsEscaped_of_not_mem (by decide))
  · exact ampsEscaped_append (ampsEscaped_append (ampsEscaped_append (ampsEscaped_append
      (ampsEscaped_append (ampsEscaped_append (ampsEscaped_of_not_mem (by decide))
      (ampsEscaped_esc _)) (ampsEscaped_of_not_mem (by decide))) (ampsEscaped_esc _))
      (ampsEscaped_of_not_mem (by decide))) (ampsEscaped_esc _))
      (ampsEscaped_of_not_mem (by decide))
  · exact ampsEscaped_nil

theorem ampsEscaped_numToString (n : Nat) : AmpsEscaped (numToString 10 n) :=
  ampsEscaped_of_not_mem (fun h => (numToString_plain 10 (by decide) (by decide) n _ h).2.2.1 rfl)

theorem ampsEscaped_buildHTML (year : Nat) (title : Str) (theme : Option Str)
    (blocks : List Block) : AmpsEscaped (buildHTML year title theme blocks) := by
  unfold buildHTML
  have hbody : AmpsEscaped (join "\n".toList (blocks.map renderBlock)) := by
    apply ampsEscaped_join _ (ampsEscaped_of_not_mem (by decide))
    intro s hs
    obtain ⟨b, _, rfl⟩ := List.mem_map.mp hs
    exact ampsEscaped_renderBlock b
  exact ampsEscaped_append (ampsEscaped_append (ampsEscaped_append (ampsEscaped_append
    (ampsEscaped_append (ampsEscaped_append (ampsEscaped_append (ampsEscaped_append
    (ampsEscaped_append (ampsEscaped_append (ampsEscaped_of_not_mem (by decide))
    (ampsEscaped_esc _)) (ampsEscaped_of_not_mem (by decide))) (ampsEscaped_esc _))
    (ampsEscaped_of_not_mem (by decide))) (ampsEscaped_esc _))
    (ampsEscaped_of_not_mem (by decide))) hbody) (ampsEscaped_of_not_mem (by decide)))
    (ampsEscaped_numToString _)) (ampsEscaped_of_not_mem (by decide))

/-- C2: for every title, theme and block list, the document `buildHTML` renders
has exactly as many `<` and as many `>` as the same document rendered with the
title, the theme and every block's text, alt and src empty, namely the 30 of
the page template plus 2 per `h1` or `p` block and 5 per `image` block, and
every `&` in it begins `&amp;`, `&lt;` or `&gt;`. -/
theorem buildHTML_values_escaped (year : Nat) (title : Str) (theme : Option Str)
    (blocks : List Block) :
    List.count '<' (buildHTML year title theme blocks)
      = List.count '<' (buildHTML year [] (some []) (blocks.map blank)) ∧
    List.count '>' (buildHTML year title theme blocks)
      = List.count '>' (buildHTML year [] (some []) (blocks.map blank)) ∧
    List.count '<' (buildHTML year title theme blocks) = 30 + (blocks.map tagCount).sum ∧
    List.count '>' (buildHTML year title theme blocks) = 30 + (blocks.map tagCount).sum ∧
    (∀ i, (buildHTML year title theme blocks)[i]? = some '&' →
      EntityAt (buildHTML year title theme blocks) i) := by
  have hb : ((blocks.map blank).map tagCount).sum = (blocks.map tagCount).sum := by
    rw [List.map_map]
    rfl
  refine ⟨?_, ?_, count_buildHTML _ _ _ _ _ (Or.inl rfl), count_buildHTML _ _ _ _ _ (Or.inr rfl),
    ampsEscaped_buildHTML year title theme blocks⟩
  · rw [count_buildHTML _ _ _ _ _ (Or.inl rfl), count_buildHTML _ _ _ _ _ (Or.inl rfl), hb]
  · rw [count_buildHTML _ _ _ _ _ (Or.inr rfl), count_buildHTML _ _ _ _ _ (Or.inr rfl), hb]

/-! ## The slug -/

theorem mem_replaceRuns (inRun : Bool) (s : Str) (c : Char) (hc : c ∈ replaceRuns inRun s) :
    isAlnum c = true ∨ c = '-' := by
  induction s generalizing inRun with
  | nil => simp [replaceRuns] at hc
  | cons x xs ih =>
    unfold replaceRuns at hc
    split_ifs at hc with h1 h2
    · rcases List.mem_cons.mp hc with h | h
      · exact Or.inl (h ▸ h1)
      · exact ih _ h
    · exact ih _ hc
    · rcases List.mem_cons.mp hc with h | h
      · exact Or.inr h
      · exact ih _ h

theorem mem_dropLastHyphen (s : Str) (c : Char) (hc : c ∈ dropLastHyphen s) : c ∈ s := by
  induction s with
  | nil => exact hc
  | cons x xs ih =>
    cases xs with
    | nil =>
      unfold dropLastHyphen at hc
      split_ifs at hc
      · simp at hc
      · exact hc
    | cons y ys =>
      unfold dropLastHyphen at hc
      rcases List.mem_cons.mp hc with h | h
      · exact h ▸ List.mem_cons_self _ _
      · exact List.mem_cons_of_mem _ (ih h)

theorem mem_trimHyphens (s : Str) (c : Char) (hc : c ∈ trimHyphens s) : c ∈ s := by
  unfold trimHyphens at hc
  split at hc
  · exact List.mem_cons_of_mem _ (mem_dropLastHyphen _ _ hc)
  · exact mem_dropLastHyphen _ _ hc

theorem replaceRuns_no_alnum (s : Str) (h : ∀ c ∈ s, isAlnum c = false) :
    replaceRuns true s = [] ∧ (replaceRuns false s = [] ∨ replaceRuns false s = ['-']) := by
  induction s with
  | nil => exact ⟨rfl, Or.inl rfl⟩
  | cons x xs ih =>
    have hx : isAlnum x = false := h x (List.mem_cons_self _ _)
    have ih := ih (fun c hc => h c (List.mem_cons_of_mem _ hc))
    constructor
    · simp [replaceRuns, hx, ih.1]
    · right
      simp [replaceRuns, hx, ih.1]

theorem isAlnum_iff (c : Char) :
    isAlnum c = true ↔ ('a' ≤ c ∧ c ≤ 'z') ∨ ('0' ≤ c ∧ c ≤ '9') := by
  simp [isAlnum]

theorem slugOf_cases (t : Str) :
    slugOf t = "site".toList ∨
    (slugOf t = (trimHyphens (replaceRuns false (toLowerCase t))).take 40 ∧
      (trimHyphens (replaceRuns false (toLowerCase t))).take 40 ≠ []) := by
  unfold slugOf
  cases h : (trimHyphens (replaceRuns false (toLowerCase t))).take 40 with
  | nil => exact Or.inl rfl
  | cons x xs => exact Or.inr ⟨rfl, List.cons_ne_nil _ _⟩

theorem slugOf_ne_nil (t : Str) : slugOf t ≠ [] := by
  rcases slugOf_cases t with h | ⟨h, hne⟩
  · rw [h]
    decide
  · rw [h]
    exact hne

theorem slugOf_length (t : Str) : (slugOf t).length ≤ 40 := by
  rcases slugOf_cases t with h | ⟨h, _⟩
  · rw [h]
    decide
  · rw [h]
    exact List.length_take_le _ _

theorem slugOf_chars (t : Str) (c : Char) (hc : c ∈ slugOf t) : isAlnum c = true ∨ c = '-' := by
  rcases slugOf_cases t with h | ⟨h, _⟩
  · rw [h] at hc
    left
    revert c
    decide
  · rw [h] at hc
    exact mem_replaceRuns _ _ _ (mem_trimHyphens _ _ (List.mem_of_mem_take hc))

theorem slugOf_site (t : Str) (h : ∀ c ∈ toLowerCase t, isAlnum c = false) :
    slugOf t = "site".toList := by
  unfold slugOf
  rcases (replaceRuns_no_alnum _ h).2 with h0 | h0
  · rw [h0]
    rfl
  · rw [h0]
    rfl

theorem slugBase_eq (title : JSVal) (t : Str) (ht : truthy title = true)
    (hs : toStringMethod title = some t) : slugBase title = some (slugOf t) := by
  simp [slugBase, ht, hs]

/-- C3: for every title that create-site accepts (truthy, with `toString()`
giving `t`), the slug exists, is non-empty, consists only of `a-z`, `0-9` and
`-`, and has at most 40 characters; when the lower-cased title has no character
of `a-z`, `0-9`, the slug is `site`, as for the editor's default title. -/
theorem slugBase_wellformed (title : JSVal) (t : Str) (ht : truthy title = true)
    (hs : toStringMethod title = some t) :
    ∃ slug, slugBase title = some slug ∧ slug ≠ [] ∧
      (∀ c ∈ slug, ('a' ≤ c ∧ c ≤ 'z') ∨ ('0' ≤ c ∧ c ≤ '9') ∨ c = '-') ∧
      slug.length ≤ 40 ∧
      ((∀ c ∈ toLowerCase t, ¬ (('a' ≤ c ∧ c ≤ 'z') ∨ ('0' ≤ c ∧ c ≤ '9'))) →
        slug = "site".toList) ∧
      slugBase (JSVal.string "Без названия".toList) = some "site".toList := by
  refine ⟨slugOf t, slugBase_eq title t ht hs, slugOf_ne_nil t, ?_, slugOf_length t, ?_, by decide⟩
  · intro c hc
    rcases slugOf_chars t c hc with h | h
    · rcases (isAlnum_iff c).mp h with h | h
      · exact Or.inl h
      · exact Or.inr (Or.inl h)
    · exact Or.inr (Or.inr h)
  · intro h
    apply slugOf_site
    intro c hc
    have := h c hc
    rw [← isAlnum_iff] at this
    simpa using this

/-- Witness of C3 at the title `Hello World`. -/
theorem slugBase_wellformed_witness :
    truthy (JSVal.string "Hello World".toList) = true ∧
    toStringMethod (JSVal.string "Hello World".toList) = some "Hello World".toList ∧
    ∃ slug, slugBase (JSVal.string "Hello World".toList) = some slug ∧ slug ≠ [] ∧
      (∀ c ∈ slug, ('a' ≤ c ∧ c ≤ 'z') ∨ ('0' ≤ c ∧ c ≤ '9') ∨ c = '-') ∧
      slug.length ≤ 40 ∧
      ((∀ c ∈ toLowerCase "Hello World".toList,
          ¬ (('a' ≤ c ∧ c ≤ 'z') ∨ ('0' ≤ c ∧ c ≤ '9'))) →
        slug = "site".toList) ∧
      slugBase (JSVal.string "Без названия".toList) = some "site".toList :=
  ⟨by decide, rfl,
    slugBase_wellformed (JSVal.string "Hello World".toList) "Hello World".toList (by decide) rfl⟩

theorem isAlnum_ne_hyphen (c : Char) (h : isAlnum c = true) : c ≠ '-' := by
  rintro rfl
  exact absurd h (by decide)

theorem replaceRuns_shape (s : Str) :
    NoDoubleHyphen (replaceRuns false s) ∧ NoDoubleHyphen (replaceRuns true s) ∧
    (replaceRuns true s).head? ≠ some '-' := by
  induction s with
  | nil => exact ⟨List.chain'_nil, List.chain'_nil, by simp [replaceRuns]⟩
  | cons x xs ih =>
    obtain ⟨ihf, iht, ihh⟩ := ih
    by_cases hx : isAlnum x = true
    · have hne := isAlnum_ne_hyphen x hx
      have hc : NoDoubleHyphen (x :: replaceRuns false xs) := by
        unfold NoDoubleHyphen
        rw [List.chain'_cons']
        exact ⟨fun y _ h => hne h.1, ihf⟩
      refine ⟨?_, ?_, ?_⟩
      · simpa [replaceRuns, hx] using hc
      · simpa [replaceRuns, hx] using hc
      · simp [replaceRuns, hx, hne]
    · have hc : NoDoubleHyphen ('-' :: replaceRuns true xs) := by
        unfold NoDoubleHyphen
        rw [List.chain'_cons']
        refine ⟨fun y hy h => ihh ?_, iht⟩
        rw [Option.mem_def] at hy
        rw [hy, h.2]
      refine ⟨?_, ?_, ?_⟩
      · simpa [replaceRuns, hx] using hc
      · simpa [replaceRuns, hx] using iht
      · simpa [replaceRuns, hx] using ihh

theorem dropLastHyphen_isPrefix (s : Str) : dropLastHyphen s <+: s := by
  induction s with
  | nil => exact List.prefix_refl _
  | cons x xs ih =>
    cases xs with
    | nil =>
      unfold dropLastHyphen
      split_ifs
      · exact List.nil_prefix
      · exact List.prefix_refl _
    | cons y ys =>
      unfold dropLastHyphen
      exact (List.prefix_cons_inj x).mpr ih

theorem head?_of_isPrefix {p s : Str} (h : p <+: s) : p.head? = none ∨ p.head? = s.head? := by
  obtain ⟨r, rfl⟩ := h
  cases p with
  | nil => exact Or.inl rfl
  | cons a as => exact Or.inr rfl

theorem noDoubleHyphen_of_isPrefix {p s : Str} (h : p <+: s) (hs : NoDoubleHyphen s) :
    NoDoubleHyphen p :=
  List.Chain'.prefix hs h

theorem take_isPrefix (n : Nat) (s : Str) : s.take n <+: s :=
  List.take_prefix n s

theorem trimHyphens_shape (s : Str) (hs : NoDoubleHyphen s) :
    NoDoubleHyphen (trimHyphens s) ∧ (trimHyphens s).head? ≠ some '-' := by
  unfold trimHyphens
  split
  · rename_i rest
    have hrest : NoDoubleHyphen rest := List.Chain'.tail hs
    have hhead : rest.head? ≠ some '-' := by
      intro h
      unfold NoDoubleHyphen at hs
      rw [List.chain'_cons'] at hs
      exact hs.1 '-' (by rw [Option.mem_def]; exact h) ⟨rfl, rfl⟩
    refine ⟨noDoubleHyphen_of_isPrefix (dropLastHyphen_isPrefix rest) hrest, ?_⟩
    rcases head?_of_isPrefix (dropLastHyphen_isPrefix rest) with h | h
    · rw [h]
      simp
    · rw [h]
      exact hhead
  · rename_i hno
    refine ⟨noDoubleHyphen_of_isPrefix (dropLastHyphen_isPrefix s) hs, ?_⟩
    rcases head?_of_isPrefix (dropLastHyphen_isPrefix s) with h | h
    · rw [h]
      simp
    · rw [h]
      intro hh
      cases s with
      | nil => simp at hh
      | cons a as =>
        simp only [List.head?_cons, Option.some.injEq] at hh
        exact hno as (by rw [hh])

theorem slugOf_shape (t : Str) : (slugOf t).head? ≠ some '-' ∧ NoDoubleHyphen (slugOf t) := by
  rcases slugOf_cases t with h | ⟨h, _⟩
  · rw [h]
    refine ⟨by decide, ?_⟩
    unfold NoDoubleHyphen
    simp
  · rw [h]
    have hsh := trimHyphens_shape _ (replaceRuns_shape (toLowerCase t)).1
    refine ⟨?_, noDoubleHyphen_of_isPrefix (take_isPrefix _ _) hsh.1⟩
    rcases head?_of_isPrefix (take_isPrefix 40 (trimHyphens (replaceRuns false (toLowerCase t))))
      with h1 | h1
    · rw [h1]
      simp
    · rw [h1]
      exact hsh.2

/-- C4: at the title made of 39 letters `a`, a space and `b`, the slug is the 39
letters followed by a hyphen: the cap to 40 characters is applied after the
trimming and leaves a trailing hyphen.  For every title string the slug does
not start with a hyphen and has no two adjacent hyphens. -/
theorem slugBase_trailing_hyphen :
    slugBase (JSVal.string "aaaaaaaaaaaaaaaaaaaaaaaaaaaaaaaaaaaaaaa b".toList)
      = some "aaaaaaaaaaaaaaaaaaaaaaaaaaaaaaaaaaaaaaa-".toList ∧
    (slugOf "aaaaaaaaaaaaaaaaaaaaaaaaaaaaaaaaaaaaaaa b".toList).getLast? = some '-' ∧
    (∀ t : Str, (slugOf t).head? ≠ some '-' ∧ NoDoubleHyphen (slugOf t)) :=
  ⟨by decide, by decide, slugOf_shape⟩

/-! ## The site identifier -/

theorem digitVal_digitChar : ∀ d, d < 36 → digitVal (digitChar d) = d := by
  decide

theorem toDigitsAux_acc (radix fuel n : Nat) (acc : Str) :
    toDigitsAux radix fuel n acc = toDigitsAux radix fuel n [] ++ acc := by
  induction fuel generalizing n acc with
  | zero => rfl
  | succ k ih =>
    unfold toDigitsAux
    split_ifs
    · rfl
    · rw [ih _ (digitChar (n % radix) :: acc), ih _ [digitChar (n % radix)]]
      simp

theorem numVal_append_singleton (radix : Nat) (s : Str) (c : Char) :
    numVal radix (s ++ [c]) = numVal radix s * radix + digitVal c := by
  simp [numVal, List.foldl_append]

theorem numVal_toDigitsAux (radix : Nat) (h2 : 2 ≤ radix) (h36 : radix ≤ 36) (fuel n : Nat)
    (hf : n < fuel) : numVal radix (toDigitsAux radix fuel n []) = n := by
  induction fuel generalizing n with
  | zero => omega
  | succ k ih =>
    have hmod : n % radix < 36 := lt_of_lt_of_le (Nat.mod_lt _ (by omega)) h36
    unfold toDigitsAux
    split_ifs with h0
    · have hn : n % radix = n := by
        have := Nat.div_add_mod n radix
        rw [h0] at this
        omega
      rw [hn] at hmod
      simp [numVal, hn, digitVal_digitChar _ hmod]
    · rw [toDigitsAux_acc, numVal_append_singleton, digitVal_digitChar _ hmod]
      have hlt : n / radix < k := by
        have hpos : 0 < n := by
          rcases Nat.eq_zero_or_pos n with h | h
          · rw [h] at h0
            simp at h0
          · exact h
        have : n / radix < n := Nat.div_lt_self hpos (by omega)
        omega
      rw [ih _ hlt]
      exact Nat.div_add_mod' n radix

theorem numVal_numToString (radix : Nat) (h2 : 2 ≤ radix) (h36 : radix ≤ 36) (n : Nat) :
    numVal radix (numToString radix n) = n :=
  numVal_toDigitsAux radix h2 h36 _ _ (Nat.lt_succ_self n)

theorem numToString_injective (radix : Nat) (h2 : 2 ≤ radix) (h36 : radix ≤ 36) (n m : Nat)
    (h : numToString radix n = numToString radix m) : n = m := by
  rw [← numVal_numToString radix h2 h36 n, ← numVal_numToString radix h2 h36 m, h]

theorem split_at_first (x : Char) (a b u v : Str) (ha : x ∉ a) (hb : x ∉ b)
    (h : a ++ x :: u = b ++ x :: v) : a = b ∧ u = v := by
  induction a generalizing b with
  | nil =>
    cases b with
    | nil => exact ⟨rfl, by simpa using h⟩
    | cons d ds =>
      simp only [List.nil_append, List.cons_append, List.cons.injEq] at h
      exact absurd (h.1 ▸ List.mem_cons_self _ _) hb
  | cons c cs ih =>
    cases b with
    | nil =>
      simp only [List.nil_append, List.cons_append, List.cons.injEq] at h
      exact absurd (h.1 ▸ List.mem_cons_self _ _) ha
    | cons d ds =>
      simp only [List.cons_append, List.cons.injEq] at h
      obtain ⟨h1, h2⟩ := ih ds (fun hm => ha (List.mem_cons_of_mem _ hm))
        (fun hm => hb (List.mem_cons_of_mem _ hm)) h.2
      exact ⟨by rw [h.1, h1], h2⟩

theorem split_at_last (x : Char) (a b u v : Str) (hu : x ∉ u) (hv : x ∉ v)
    (h : a ++ x :: u = b ++ x :: v) : a = b ∧ u = v := by
  have hr := congrArg List.reverse h
  simp only [List.reverse_append, List.reverse_cons, List.append_assoc, List.singleton_append]
    at hr
  obtain ⟨h1, h2⟩ := split_at_first x u.reverse v.reverse a.reverse b.reverse
    (by simpa using hu) (by simpa using hv) hr
  exact ⟨List.reverse_injective h2, List.reverse_injective h1⟩

theorem siteId_parts (s₁ s₂ : Str) (t₁ t₂ : Nat) (r₁ r₂ : Str)
    (h1 : r₁.length = 4) (h2 : r₂.length = 4) (h : siteId s₁ t₁ r₁ = siteId s₂ t₂ r₂) :
    s₁ = s₂ ∧ t₁ = t₂ ∧ r₁ = r₂ := by
  unfold siteId at h
  obtain ⟨ha, hr⟩ := List.append_inj' h (by rw [h1, h2])
  obtain ⟨hb, _⟩ := List.append_inj' ha rfl
  have hd : ∀ n, '-' ∉ numToString 36 n := fun n hm =>
    (numToString_plain 36 (by decide) (by decide) n _ hm).2.2.2 rfl
  have hb2 : s₁ ++ '-' :: numToString 36 t₁ = s₂ ++ '-' :: numToString 36 t₂ := by
    simpa using hb
  obtain ⟨hs, ht⟩ := split_at_last '-' _ _ _ _ (hd t₁) (hd t₂) hb2
  exact ⟨hs, numToString_injective 36 (by decide) (by decide) _ _ ht, hr⟩

/-- C8: with 4-character random suffixes, two calls for the same title (hence
the same slug) whose (timestamp, suffix) pairs differ get distinct site
identifiers, and in general equal identifiers have equal slug, timestamp and
suffix, whatever hyphens the slug and the suffix contain. -/
theorem siteId_unique (t₁ t₂ : Nat) (r₁ r₂ : Str) (h1 : r₁.length = 4) (h2 : r₂.length = 4) :
    (∀ title slug, slugBase title = some slug → (t₁, r₁) ≠ (t₂, r₂) →
      siteId slug t₁ r₁ ≠ siteId slug t₂ r₂) ∧
    (∀ s₁ s₂, siteId s₁ t₁ r₁ = siteId s₂ t₂ r₂ → s₁ = s₂ ∧ t₁ = t₂ ∧ r₁ = r₂) := by
  refine ⟨fun _ slug _ hne heq => ?_, fun s₁ s₂ h => siteId_parts s₁ s₂ t₁ t₂ r₁ r₂ h1 h2 h⟩
  obtain ⟨_, ht, hr⟩ := siteId_parts slug slug t₁ t₂ r₁ r₂ h1 h2 heq
  exact hne (by rw [ht, hr])

/-- Witness of C8: same timestamp, suffixes `a-b-` and `--b-`. -/
theorem siteId_unique_witness :
    "a-b-".toList.length = 4 ∧ "--b-".toList.length = 4 ∧
    (∀ title slug, slugBase title = some slug →
      ((1700000000000, "a-b-".toList) : Nat × Str) ≠ (1700000000000, "--b-".toList) →
      siteId slug 1700000000000 "a-b-".toList ≠ siteId slug 1700000000000 "--b-".toList) ∧
    (∀ s₁ s₂, siteId s₁ 1700000000000 "a-b-".toList = siteId s₂ 1700000000000 "--b-".toList →
      s₁ = s₂ ∧ 1700000000000 = 1700000000000 ∧ "a-b-".toList = "--b-".toList) :=
  ⟨rfl, rfl, siteId_unique 1700000000000 1700000000000 "a-b-".toList "--b-".toList rfl rfl⟩

/-! ## The create-site handler -/

theorem perform_ok (env : Env) (hfs : ∀ op, env.fails op = false) (op : FsOp) (log : List FsOp) :
    perform env op log = .ok (log ++ [op]) := by
  simp [perform, hfs op]

theorem copyImages_ok (env : Env) (hfs : ∀ op, env.fails op = false)
    (assetsDir : Path) (blocks : List Block) (log : List FsOp) :
    copyImages env assetsDir blocks log
      = .ok (blocks.map withSrc,
          log ++ (blocks.filter (copied env)).map (copyOp env assetsDir)) := by
  induction blocks generalizing log with
  | nil => simp [copyImages]
  | cons b bs ih =>
    unfold copyImages
    by_cases hb : b.type = some "image".toList ∧ present b.filename = true
    · have hw : withSrc b
          = { b with src := some ("./assets/".toList ++ orEmpty b.filename) } := by
        unfold withSrc
        rw [if_pos hb]
      rw [if_pos hb]
      by_cases hex : pathExists env (pathJoin (UPLOADS_DIR env) (orEmpty b.filename)) = true
      · have hn : copied env b = true := by
          unfold copied
          rw [decide_eq_true hb, hex]
          rfl
        simp only [hex, if_true, perform_ok env hfs, ih]
        simp [hw, hn, copyOp]
      · have hn : copied env b = false := by
          unfold copied
          rw [Bool.eq_false_iff.mpr hex]
          exact Bool.and_false _
        simp only [hex, ih]
        simp [hw, hn]
    · have hn : copied env b = false := by
        unfold copied
        rw [decide_eq_false hb]
        rfl
      have hw : withSrc b = b := by
        unfold withSrc
        rw [if_neg hb]
      rw [if_neg hb]
      simp only [ih]
      simp [hw, hn]

theorem generate_ok (env : Env) (hfs : ∀ op, env.fails op = false)
    (title : JSVal) (t : Str) (ht : truthy title = true) (hs : toStringMethod title = some t)
    (theme : Option Str) (blocks : List Block) :
    generate env title theme blocks = .ok
      { status := 200
        reply := .ok (urlOf env.port (siteId (slugOf t) env.now env.nano))
          (siteId (slugOf t) env.now env.nano)
        effects :=
          [FsOp.ensureDir (siteDirOf env (siteId (slugOf t) env.now env.nano)),
           FsOp.ensureDir
             (pathJoin (siteDirOf env (siteId (slugOf t) env.now env.nano)) "assets".toList)]
          ++ (blocks.filter (copied env)).map
              (copyOp env
                (pathJoin (siteDirOf env (siteId (slugOf t) env.now env.nano)) "assets".toList))
          ++ [FsOp.writeFile
                (pathJoin (siteDirOf env (siteId (slugOf t) env.now env.nano)) "index.html".toList)
                (buildHTML env.year t theme (blocks.map withSrc)),
              FsOp.writeFile
                (pathJoin (siteDirOf env (siteId (slugOf t) env.now env.nano)) "styles.css".toList)
                (buildCSS theme),
              FsOp.writeFile
                (pathJoin (siteDirOf env (siteId (slugOf t) env.now env.nano)) "script.js".toList)
                buildClientJS] } := by
  unfold generate
  rw [slugBase_eq title t ht hs, hs]
  simp only [perform_ok env hfs, copyImages_ok env hfs]
  simp [siteDirOf, urlOf]

theorem generate_status (env : Env) (title : JSVal) (theme : Option Str) (blocks : List Block)
    (out : Outcome) (h : generate env title theme blocks = .ok out) : out.status = 200 := by
  unfold generate at h
  split at h
  · simp only [] at h
    repeat' split at h
    all_goals (cases h; try rfl)
  · cases h

theorem createSite_ok (env : Env) (req : Request) (blocks : List Block) (t : Str)
    (htitle : truthy req.title = true) (hstr : toStringMethod req.title = some t)
    (hblocks : req.blocks = .array blocks) (hfs : ∀ op, env.fails op = false) :
    createSite env req =
      { status := 200
        reply := .ok (urlOf env.port (siteId (slugOf t) env.now env.nano))
          (siteId (slugOf t) env.now env.nano)
        effects :=
          [FsOp.ensureDir (siteDirOf env (siteId (slugOf t) env.now env.nano)),
           FsOp.ensureDir
             (pathJoin (siteDirOf env (siteId (slugOf t) env.now env.nano)) "assets".toList)]
          ++ (blocks.filter (copied env)).map
              (copyOp env
                (pathJoin (siteDirOf env (siteId (slugOf t) env.now env.nano)) "assets".toList))
          ++ [FsOp.writeFile
                (pathJoin (siteDirOf env (siteId (slugOf t) env.now env.nano)) "index.html".toList)
                (buildHTML env.year t req.theme (blocks.map withSrc)),
              FsOp.writeFile
                (pathJoin (siteDirOf env (siteId (slugOf t) env.now env.nano)) "styles.css".toList)
                (buildCSS req.theme),
              FsOp.writeFile
                (pathJoin (siteDirOf env (siteId (slugOf t) env.now env.nano)) "script.js".toList)
                buildClientJS] } := by
  unfold createSite
  rw [htitle, hblocks]
  simp only [generate_ok env hfs req.title t htitle hstr]

set_option maxRecDepth 100000 in
/-- C6: with the server in `/srv/app` and `a.png` the only upload, a request
whose image block has the filename `../server.js` is answered 200, and the copy
loop copies `/srv/app/server.js`, a file outside uploads, to a place outside the
site's assets directory, although the filename names no entry of uploads; with
the filename `.` the whole uploads directory is copied.  For the request with
`a.png` and the never uploaded `missing.png` the answer is 200 with the three
files written and one copy, of `a.png` into assets. -/
theorem createSite_copies_outside_uploads :
    namesUpload exampleEnv
      { type := some "image".toList, filename := some "../server.js".toList } = false ∧
    (createSite exampleEnv traversalRequest).status = 200 ∧
    (createSite exampleEnv traversalRequest).effects.map touched
      = [["/srv/app/sites/my-site-loyw3v28-V1St".toList],
         ["/srv/app/sites/my-site-loyw3v28-V1St/assets".toList],
         ["/srv/app/server.js".toList, "/srv/app/sites/my-site-loyw3v28-V1St/server.js".toList],
         ["/srv/app/sites/my-site-loyw3v28-V1St/index.html".toList],
         ["/srv/app/sites/my-site-loyw3v28-V1St/styles.css".toList],
         ["/srv/app/sites/my-site-loyw3v28-V1St/script.js".toList]] ∧
    namesUpload exampleEnv { type := some "image".toList, filename := some ".".toList } = false ∧
    (createSite exampleEnv dotRequest).effects.map touched
      = [["/srv/app/sites/my-site-loyw3v28-V1St".toList],
         ["/srv/app/sites/my-site-loyw3v28-V1St/assets".toList],
         ["/srv/app/uploads".toList, "/srv/app/sites/my-site-loyw3v28-V1St/assets".toList],
         ["/srv/app/sites/my-site-loyw3v28-V1St/index.html".toList],
         ["/srv/app/sites/my-site-loyw3v28-V1St/styles.css".toList],
         ["/srv/app/sites/my-site-loyw3v28-V1St/script.js".toList]] ∧
    (createSite exampleEnv exampleRequest).status = 200 ∧
    (createSite exampleEnv exampleRequest).reply
      = .ok "http://localhost:3000/sites/my-site-loyw3v28-V1St/index.html".toList
          "my-site-loyw3v28-V1St".toList ∧
    (createSite exampleEnv exampleRequest).effects.map touched
      = [["/srv/app/sites/my-site-loyw3v28-V1St".toList],
         ["/srv/app/sites/my-site-loyw3v28-V1St/assets".toList],
         ["/srv/app/uploads/a.png".toList,
          "/srv/app/sites/my-site-loyw3v28-V1St/assets/a.png".toList],
         ["/srv/app/sites/my-site-loyw3v28-V1St/index.html".toList],
         ["/srv/app/sites/my-site-loyw3v28-V1St/styles.css".toList],
         ["/srv/app/sites/my-site-loyw3v28-V1St/script.js".toList]] := by
  refine ⟨by decide, by decide, by decide, by decide, by decide, by decide, by decide, by decide⟩

/-- C7: the handler answers 400 exactly when the title is falsy or `blocks` is
not an array; a 400 answer carries the error message and no filesystem call is
made; with a truthy title and an array the answer is 200 or 500.  Missing,
`null`, empty, `false` and `0` titles are falsy. -/
theorem createSite_rejects_iff (env : Env) (req : Request) :
    ((createSite env req).status = 400 ↔
      (truthy req.title = false ∨ req.blocks = BlocksField.notArray)) ∧
    ((createSite env req).status = 400 →
      (createSite env req).reply = Reply.error "Некорректные данные".toList ∧
      (createSite env req).effects = []) ∧
    (∀ blocks, truthy req.title = true → req.blocks = BlocksField.array blocks →
      (createSite env req).status = 200 ∨ (createSite env req).status = 500) ∧
    truthy JSVal.undefined = false ∧ truthy JSVal.null = false ∧
    truthy (JSVal.string []) = false ∧ truthy (JSVal.bool false) = false ∧
    truthy (JSVal.number "0".toList) = false := by
  have hvalid : ∀ blocks, truthy req.title = true → req.blocks = BlocksField.array blocks →
      (createSite env req).status = 200 ∨ (createSite env req).status = 500 := by
    intro blocks ht hb
    unfold createSite
    rw [ht, hb]
    simp only []
    split
    · rename_i out h
      exact Or.inl (generate_status _ _ _ _ _ h)
    · exact Or.inr rfl
  have hinvalid : (truthy req.title = false ∨ req.blocks = BlocksField.notArray) →
      createSite env req
        = { status := 400, reply := Reply.error "Некорректные данные".toList, effects := [] } := by
    intro h
    unfold createSite
    rcases h with h | h
    · rw [h]
    · rw [h]
      cases truthy req.title <;> rfl
  have hiff : (createSite env req).status = 400 ↔
      (truthy req.title = false ∨ req.blocks = BlocksField.notArray) := by
    constructor
    · intro h
      by_contra hc
      push_neg at hc
      obtain ⟨h1, h2⟩ := hc
      have ht : truthy req.title = true := by simpa using h1
      cases hb : req.blocks with
      | notArray => exact h2 hb
      | array blocks =>
        rcases hvalid blocks ht hb with h' | h'
        · rw [h'] at h
          exact absurd h (by decide)
        · rw [h'] at h
          exact absurd h (by decide)
    · intro h
      rw [hinvalid h]
  refine ⟨hiff, ?_, hvalid, rfl, rfl, rfl, rfl, by decide⟩
  intro h
  rw [hinvalid (hiff.mp h)]
  exact ⟨rfl, rfl⟩


/-! ## The rendered blocks and the theme -/

theorem hasInfix_iff (p s : Str) : hasInfix p s = true ↔ p <:+: s := by
  induction s with
  | nil =>
    cases p <;> simp [hasInfix]
  | cons c cs ih =>
    rw [hasInfix, Bool.or_eq_true, ih, List.infix_cons_iff, List.isPrefixOf_iff_prefix ]


theorem count_quote_esc (s : Str) : List.count '"' (esc s) = List.count '"' s := by
  induction s with
  | nil => rfl
  | cons c cs ih =>
    rw [esc_cons, List.count_append, ih]
    unfold escChar
    split_ifs with h1 h2 h3
    · subst h1
      rw [List.count_cons_of_ne (by decide), show List.count '"' "&amp;".toList = 0 by decide]
      omega
    · subst h2
      rw [List.count_cons_of_ne (by decide), show List.count '"' "&lt;".toList = 0 by decide]
      omega
    · subst h3
      rw [List.count_cons_of_ne (by decide), show List.count '"' "&gt;".toList = 0 by decide]
      omega
    · rw [List.count_cons, List.count_cons, List.count_nil]
      omega


theorem quote_not_mem_esc (s : Str) (h : '"' ∉ s) : '"' ∉ esc s := by
  rw [← List.count_eq_zero, count_quote_esc, List.count_eq_zero]
  exact h

theorem infix_buildHTML_theme (year : Nat) (title : Str) (theme : Option Str)
    (blocks : List Block) :
    ("<body class=\"".toList ++ ("theme-".toList ++ esc (themeOrLight theme)) ++ "\">".toList)
      <:+: buildHTML year title theme blocks := by
  have hB : pageB = pageB.take (pageB.length - 19) ++ "<body class=\"theme-".toList := by decide
  have hC : pageC = "\">".toList ++ pageC.drop 2 := by decide
  refine ⟨pageA ++ esc title ++ pageB.take (pageB.length - 19),
    pageC.drop 2 ++ esc title ++ pageD ++ join "\n".toList (blocks.map renderBlock) ++ pageE
      ++ numToString 10 year ++ pageF, ?_⟩
  unfold buildHTML
  simp only []
  conv_rhs => rw [hB, hC]
  simp only [List.append_assoc]
  rfl

theorem bodyClass_buildHTML (year : Nat) (title : Str) (theme : Option Str)
    (blocks : List Block) (hq : '"' ∉ themeOrLight theme) :
    BodyClass (buildHTML year title theme blocks) ("theme-".toList ++ esc (themeOrLight theme)) := by
  refine ⟨?_, infix_buildHTML_theme year title theme blocks⟩
  intro h
  rcases List.mem_append.mp h with h | h
  · exact absurd h (by decide)
  · exact quote_not_mem_esc _ hq h

set_option maxRecDepth 100000 in
theorem main_of_buildHTML (year : Nat) (title : Str) (theme : Option Str)
    (blocks : List Block) :
    ∃ before after, buildHTML year title theme blocks
      = before ++ "  <main class=\"container\">\n".toList
          ++ join "\n".toList (blocks.map renderBlock) ++ "\n  </main>".toList ++ after := by
  have hD : pageD = pageD.take (pageD.length - 27) ++ "  <main class=\"container\">\n".toList := by
    decide
  have hE : pageE = "\n  </main>".toList ++ pageE.drop 10 := by decide
  refine ⟨pageA ++ esc title ++ pageB ++ esc (themeOrLight theme) ++ pageC ++ esc title
      ++ pageD.take (pageD.length - 27),
    pageE.drop 10 ++ numToString 10 year ++ pageF, ?_⟩
  unfold buildHTML
  simp only []
  conv_lhs => rw [hD, hE]
  simp only [List.append_assoc]

theorem renderBlock_h1 (b : Block) (h : b.type = some "h1".toList) :
    renderBlock (withSrc b)
      = "<h1 class=\"block block-h1\">".toList ++ esc (orEmpty b.text) ++ "</h1>".toList := by
  have hw : withSrc b = b := by
    unfold withSrc
    rw [if_neg (fun hh => absurd (h.symm.trans hh.1) (by decide))]
  rw [hw]
  unfold renderBlock
  rw [if_pos h]

theorem renderBlock_p (b : Block) (h : b.type = some "p".toList) :
    renderBlock (withSrc b)
      = "<p class=\"block block-p\">".toList ++ esc (orEmpty b.text) ++ "</p>".toList := by
  have hw : withSrc b = b := by
    unfold withSrc
    rw [if_neg (fun hh => absurd (h.symm.trans hh.1) (by decide))]
  rw [hw]
  unfold renderBlock
  rw [if_neg (by rw [h]; decide), if_pos h]

theorem renderBlock_image (b : Block) (name : Str) (h : b.type = some "image".toList)
    (hf : b.filename = some name) (hne : name ≠ []) :
    ∃ img, renderBlock (withSrc b)
        = "<figure class=\"block block-img\">".toList ++ img ++ "<figcaption>".toList
          ++ esc (orEmpty b.alt) ++ "</figcaption></figure>".toList ∧
      ('"' ∉ name → ImgSrc img (esc ("./assets/".toList ++ name))) := by
  have hp : present b.filename = true := by
    rw [hf]
    cases name with
    | nil => exact absurd rfl hne
    | cons c cs => rfl
  have hw : withSrc b = { b with src := some ("./assets/".toList ++ name) } := by
    unfold withSrc
    rw [if_pos ⟨h, hp⟩, hf]
    rfl
  refine ⟨"<img src=\"".toList ++ esc ("./assets/".toList ++ name) ++ "\" alt=\"".toList
    ++ esc (orEmpty b.alt) ++ "\">".toList, ?_, ?_⟩
  · rw [hw]
    unfold renderBlock
    rw [if_neg (by rw [h]; decide), if_neg (by rw [h]; decide), if_pos h]
    simp only [orEmpty, List.append_assoc]
    rfl
  · intro hq
    refine ⟨?_, [], " alt=\"".toList ++ esc (orEmpty b.alt) ++ "\">".toList, ?_⟩
    · apply quote_not_mem_esc
      intro hm
      rcases List.mem_append.mp hm with hm | hm
      · exact absurd hm (by decide)
      · exact hq hm
    · simp only [List.append_assoc, List.nil_append]
      rfl

theorem renderBlock_other (b : Block) (h1 : b.type ≠ some "h1".toList)
    (h2 : b.type ≠ some "p".toList) (h3 : b.type ≠ some "image".toList) :
    renderBlock (withSrc b) = [] := by
  have hw : withSrc b = b := by
    unfold withSrc
    rw [if_neg (fun h => h3 h.1)]
  rw [hw]
  unfold renderBlock
  rw [if_neg h1, if_neg h2, if_neg h3]

theorem darkOverride_in_css (theme : Option Str) : darkOverride <:+: buildCSS theme := by
  have h : buildCSS theme = buildCSS none := rfl
  rw [h, ← hasInfix_iff]
  decide

set_option maxRecDepth 100000 in
/-- C5 (amended): when generation succeeds, the `main` element of `index.html`
holds the blocks rendered one by one, in the order of the list and joined by
newlines: an `h1` block gives an `h1` element with `esc(text)`, a `p` block a
`p` element with `esc(text)`, an image block with a non-empty filename a
`figure` whose `figcaption` holds `esc(alt)` and whose `img` has src
`esc('./assets/' + filename)` when the filename has no double quote, any other
type the empty string.  The `body` class is `theme-` followed by `esc(theme)`
when the theme is a non-empty string without a double quote, and `theme-light`
when the theme is absent or empty.  `styles.css` contains the `.theme-dark`
override block.  The blocks of the round trip render as `roundTripBody`. -/
theorem createSite_renders_blocks (env : Env) (req : Request) (blocks : List Block) (t : Str)
    (htitle : truthy req.title = true) (hstr : toStringMethod req.title = some t)
    (hblocks : req.blocks = .array blocks) (hfs : ∀ op, env.fails op = false) :
    ∃ html css,
      FsOp.writeFile
          (pathJoin (siteDirOf env (siteId (slugOf t) env.now env.nano)) "index.html".toList) html
        ∈ (createSite env req).effects ∧
      FsOp.writeFile
          (pathJoin (siteDirOf env (siteId (slugOf t) env.now env.nano)) "styles.css".toList) css
        ∈ (createSite env req).effects ∧
      (∃ before after, html
        = before ++ "  <main class=\"container\">\n".toList
          ++ join "\n".toList (blocks.map (fun b => renderBlock (withSrc b)))
          ++ "\n  </main>".toList ++ after) ∧
      (∀ b, b.type = some "h1".toList → renderBlock (withSrc b)
        = "<h1 class=\"block block-h1\">".toList ++ esc (orEmpty b.text) ++ "</h1>".toList) ∧
      (∀ b, b.type = some "p".toList → renderBlock (withSrc b)
        = "<p class=\"block block-p\">".toList ++ esc (orEmpty b.text) ++ "</p>".toList) ∧
      (∀ b name, b.type = some "image".toList → b.filename = some name → name ≠ [] →
        ∃ img, renderBlock (withSrc b)
            = "<figure class=\"block block-img\">".toList ++ img ++ "<figcaption>".toList
              ++ esc (orEmpty b.alt) ++ "</figcaption></figure>".toList ∧
          ('"' ∉ name → ImgSrc img (esc ("./assets/".toList ++ name)))) ∧
      (∀ b, b.type ≠ some "h1".toList → b.type ≠ some "p".toList →
        b.type ≠ some "image".toList → renderBlock (withSrc b) = []) ∧
      (∀ th, req.theme = some th → th ≠ [] → '"' ∉ th →
        BodyClass html ("theme-".toList ++ esc th)) ∧
      ((req.theme = none ∨ req.theme = some []) → BodyClass html "theme-light".toList) ∧
      darkOverride <:+: css ∧
      join "\n".toList
        (([{ type := some "h1".toList, text := some "Hello".toList },
           { type := some "p".toList, text := some "World".toList },
           { type := some "image".toList, filename := some "a.png".toList,
             alt := some "cap".toList }] : List Block).map (fun b => renderBlock (withSrc b)))
        = roundTripBody := by
  refine ⟨buildHTML env.year t req.theme (blocks.map withSrc), buildCSS req.theme, ?_, ?_, ?_,
    renderBlock_h1, renderBlock_p, renderBlock_image, renderBlock_other, ?_, ?_,
    darkOverride_in_css req.theme, by decide⟩
  · rw [createSite_ok env req blocks t htitle hstr hblocks hfs]
    simp
  · rw [createSite_ok env req blocks t htitle hstr hblocks hfs]
    simp
  · have h := main_of_buildHTML env.year t req.theme (blocks.map withSrc)
    rw [List.map_map] at h
    exact h
  · intro th hth hne hq
    have ht : themeOrLight req.theme = th := by
      rw [hth]
      cases th with
      | nil => exact absurd rfl hne
      | cons c cs => rfl
    have h := bodyClass_buildHTML env.year t req.theme (blocks.map withSrc) (by rw [ht]; exact hq)
    rw [ht] at h
    exact h
  · intro hth
    have ht : themeOrLight req.theme = "light".toList := by
      rcases hth with h0 | h0 <;> rw [h0] <;> rfl
    have h := bodyClass_buildHTML env.year t req.theme (blocks.map withSrc)
      (by rw [ht]; decide)
    rw [ht] at h
    exact h

set_option maxRecDepth 100000 in
/-- Witness of C5 (amended): the round trip of the specification.  The markup
written to `index.html` holds the three blocks in order, its `body` class is
`theme-dark`, and `styles.css` holds the dark override block. -/
theorem createSite_renders_blocks_witness :
    truthy roundTripRequest.title = true ∧
    toStringMethod roundTripRequest.title = some "My site".toList ∧
    (∀ op, exampleEnv.fails op = false) ∧
    ∃ html css,
      FsOp.writeFile "/srv/app/sites/my-site-loyw3v28-V1St/index.html".toList html
        ∈ (createSite exampleEnv roundTripRequest).effects ∧
      FsOp.writeFile "/srv/app/sites/my-site-loyw3v28-V1St/styles.css".toList css
        ∈ (createSite exampleEnv roundTripRequest).effects ∧
      roundTripBody <:+: html ∧
      ImgSrc html "./assets/a.png".toList ∧
      BodyClass html "theme-dark".toList ∧
      darkOverride <:+: css := by
  refine ⟨by decide, rfl, fun _ => rfl, ?_⟩
  obtain ⟨html, css, hw, hc, ⟨before, after, hh⟩, _, _, _, _, hth, _, hd, hrt⟩ :=
    createSite_renders_blocks exampleEnv roundTripRequest _ "My site".toList
      (by decide) rfl rfl (fun _ => rfl)
  rw [hrt] at hh
  refine ⟨html, css, hw, hc, ?_, ?_, hth "dark".toList rfl (by decide) (by decide), hd⟩
  · rw [hh]
    exact ⟨before ++ "  <main class=\"container\">\n".toList, "\n  </main>".toList ++ after,
      by simp only [List.append_assoc]⟩
  · refine ⟨by decide, ?_⟩
    rw [hh]
    have hi : ("<img src=\"".toList ++ "./assets/a.png".toList ++ "\"".toList)
        <:+: roundTripBody := by
      rw [← hasInfix_iff]
      decide
    obtain ⟨u, v, huv⟩ := hi
    exact ⟨before ++ "  <main class=\"container\">\n".toList ++ u,
      v ++ "\n  </main>".toList ++ after, by rw [← huv]; simp only [List.append_assoc]⟩

set_option maxRecDepth 100000 in
/-- C5, as stated, fails at three values.  For the empty theme the markup has no
`body` tag of class `theme-`: its class is `theme-light`.  For the theme `a&b`
the class written is `theme-a&amp;b`, not `theme-a&b`, and for the filename
`a&b.png` the src written is `./assets/a&amp;b.png`, not `./assets/a&b.png`. -/
theorem rendered_values_differ :
    FsOp.writeFile "/srv/app/sites/my-site-loyw3v28-V1St/index.html".toList emptyThemeHTML
      ∈ (createSite exampleEnv emptyThemeRequest).effects ∧
    ¬ BodyClass emptyThemeHTML ("theme-".toList ++ orEmpty emptyThemeRequest.theme) ∧
    BodyClass emptyThemeHTML "theme-light".toList ∧
    FsOp.writeFile "/srv/app/sites/my-site-loyw3v28-V1St/index.html".toList ampHTML
      ∈ (createSite exampleEnv ampRequest).effects ∧
    ¬ BodyClass ampHTML ("theme-".toList ++ orEmpty ampRequest.theme) ∧
    BodyClass ampHTML "theme-a&amp;b".toList ∧
    ¬ ImgSrc ampHTML "./assets/a&b.png".toList ∧
    ImgSrc ampHTML "./assets/a&amp;b.png".toList := by
  refine ⟨by decide, ?_, ⟨by decide, ?_⟩, by decide, ?_, ⟨by decide, ?_⟩, ?_, ⟨by decide, ?_⟩⟩
  · rintro ⟨_, h⟩
    rw [← hasInfix_iff] at h
    exact absurd h (by decide)
  · rw [← hasInfix_iff]
    decide
  · rintro ⟨_, h⟩
    rw [← hasInfix_iff] at h
    exact absurd h (by decide)
  · rw [← hasInfix_iff]
    decide
  · rintro ⟨_, h⟩
    rw [← hasInfix_iff] at h
    exact absurd h (by decide)
  · rw [← hasInfix_iff]
    decide

/-! ## Attribute values -/

set_option maxRecDepth 100000 in
/-- C10: `esc` keeps every double quote, so a double quote of the alt text, the
src or the theme reaches the attribute raw.  At an image block with alt
`x" onerror="alert(1)` the `img` tag of the rendered figure carries an added
`onerror` attribute, and at the theme `x" onload="alert(1)` the `body` tag an
added `onload` attribute. -/
theorem attribute_quote_unescaped :
    (∀ s : Str, List.count '"' (esc s) = List.count '"' s) ∧
    renderBlock { type := some "image".toList, alt := some "x\" onerror=\"alert(1)".toList }
      = ("<figure class=\"block block-img\"><img src=\"\" alt=\"x\" onerror=\"alert(1)\">" ++
         "<figcaption>x\" onerror=\"alert(1)</figcaption></figure>").toList ∧
    '"' ∈ esc (orEmpty (some "x\" onerror=\"alert(1)".toList)) ∧
    "<body class=\"theme-x\" onload=\"alert(1)\">".toList
      <:+: buildHTML 2026 "My site".toList (some "x\" onload=\"alert(1)".toList) [] := by
  refine ⟨count_quote_esc, by decide, by decide, ?_⟩
  rw [← hasInfix_iff]
  decide

/-! ## app.js: drag-and-drop reordering -/

theorem findIndex_of_nodup (blocks : List EditorBlock) (hnd : (blocks.map (fun b => b.id)).Nodup)
    (i : Nat) (b : EditorBlock) (hi : blocks[i]? = some b) :
    findIndex (fun x => x.id == b.id) blocks = Int.ofNat i := by
  induction blocks generalizing i with
  | nil => simp at hi
  | cons x xs ih =>
    rw [List.map_cons, List.nodup_cons] at hnd
    cases i with
    | zero =>
      simp only [List.getElem?_cons_zero, Option.some.injEq] at hi
      subst hi
      simp [findIndex]
    | succ k =>
      simp only [List.getElem?_cons_succ] at hi
      have hmem : b.id ∈ xs.map (fun b => b.id) :=
        List.mem_map.mpr ⟨b, List.getElem?_mem hi, rfl⟩
      have hne : x.id ≠ b.id := fun h => hnd.1 (h ▸ hmem)
      unfold findIndex
      rw [ih hnd.2 k hi]
      simp [hne]

theorem splice_remove_one (l : List (Option EditorBlock)) (i : Nat) (hi : i < l.length) :
    splice l (Int.ofNat i) 1 [] = (l.take i ++ l.drop (i + 1), (l.drop i).take 1) := by
  unfold splice
  have h0 : ¬ ((i : Int) < 0) := by omega
  have h1 : min i l.length = i := by omega
  have h2 : min 1 (l.length - i) = 1 := by omega
  simp [h0, h1, h2]

theorem splice_insert_one (l : List (Option EditorBlock)) (j : Nat) (hj : j ≤ l.length)
    (x : Option EditorBlock) :
    (splice l (Int.ofNat j) 0 [x]).1 = l.take j ++ [x] ++ l.drop j := by
  unfold splice
  have h0 : ¬ ((j : Int) < 0) := by omega
  have h1 : min j l.length = j := by omega
  simp [h0, h1]

theorem reorder_eq_moved (blocks : List EditorBlock) (fromId toId : Str) (i j : Nat)
    (hnd : (blocks.map (fun b => b.id)).Nodup)
    (hfrom : (blocks[i]?).map (fun b => b.id) = some fromId)
    (hto : (blocks[j]?).map (fun b => b.id) = some toId)
    (hne : fromId ≠ toId) :
    reorder blocks fromId toId = (moved blocks i j).map some := by
  obtain ⟨bi, hbi, rfl⟩ := Option.map_eq_some'.mp hfrom
  obtain ⟨bj, hbj, rfl⟩ := Option.map_eq_some'.mp hto
  have hi : i < blocks.length := (List.getElem?_eq_some_iff.mp hbi).1
  have hj : j < blocks.length := (List.getElem?_eq_some_iff.mp hbj).1
  unfold reorder moved
  rw [if_neg hne, findIndex_of_nodup blocks hnd i bi hbi, findIndex_of_nodup blocks hnd j bj hbj]
  dsimp only
  rw [splice_remove_one _ i (by simpa using hi)]
  simp only [hbi]
  rw [splice_insert_one _ j (by simp; omega)]
  have hd : (List.take 1 (List.drop i (List.map some blocks))).head?.join = some bi := by
    rw [← List.map_drop, ← List.map_take]
    have : (blocks.drop i).take 1 = [bi] := by
      have hgi : blocks[i] = bi := (List.getElem?_eq_some_iff.mp hbi).2
      rw [List.drop_eq_getElem_cons hi, hgi]
      rfl
    rw [this]
    rfl
  rw [hd]
  simp [List.map_take, List.map_drop]

theorem getElem?_removed (l : List EditorBlock) (i k : Nat) :
    (l.take i ++ l.drop (i + 1))[k]? = if k < i then l[k]? else l[k + 1]? := by
  by_cases hk : k < i
  · rw [if_pos hk]
    by_cases hl : k < l.length
    · rw [List.getElem?_append_left (by rw [List.length_take]; omega), List.getElem?_take_of_lt hk]
    · rw [List.getElem?_eq_none (by simp; omega), List.getElem?_eq_none (by omega)]
  · rw [if_neg hk]
    by_cases hl : i ≤ l.length
    · rw [List.getElem?_append_right (by rw [List.length_take]; omega), List.getElem?_drop,
        List.length_take]
      congr 1
      omega
    · rw [List.getElem?_eq_none (by simp; omega), List.getElem?_eq_none (by omega)]

theorem getElem?_inserted (r : List EditorBlock) (x : EditorBlock) (j k : Nat)
    (hj : j ≤ r.length) :
    (r.take j ++ [x] ++ r.drop j)[k]?
      = if k < j then r[k]? else if k = j then some x else r[k - 1]? := by
  have hlen : (r.take j).length = j := by rw [List.length_take]; omega
  by_cases hk : k < j
  · rw [if_pos hk, List.append_assoc, List.getElem?_append_left (by omega),
      List.getElem?_take_of_lt hk]
  · rw [if_neg hk, List.append_assoc, List.getElem?_append_right (by omega), hlen]
    by_cases hkj : k = j
    · rw [if_pos hkj, hkj]
      simp
    · rw [if_neg hkj]
      have h1 : k - j = (k - j - 1) + 1 := by omega
      rw [h1, List.singleton_append, List.getElem?_cons_succ, List.getElem?_drop]
      congr 1
      omega

theorem moved_positions (blocks : List EditorBlock) (i j : Nat) (b : EditorBlock)
    (hbi : blocks[i]? = some b) (hj : j < blocks.length) :
    (moved blocks i j).length = blocks.length ∧
    (moved blocks i j)[j]? = blocks[i]? ∧
    (∀ k, (k < i ∧ k < j) ∨ (i < k ∧ j < k) → (moved blocks i j)[k]? = blocks[k]?) ∧
    (∀ k, i ≤ k → k < j → (moved blocks i j)[k]? = blocks[k + 1]?) ∧
    (∀ k, j < k → k ≤ i → (moved blocks i j)[k]? = blocks[k - 1]?) := by
  have hi : i < blocks.length := (List.getElem?_eq_some_iff.mp hbi).1
  have hrl : (blocks.take i ++ blocks.drop (i + 1)).length = blocks.length - 1 := by
    rw [List.length_append, List.length_take, List.length_drop]
    omega
  have hm : moved blocks i j
      = (blocks.take i ++ blocks.drop (i + 1)).take j ++ [b]
        ++ (blocks.take i ++ blocks.drop (i + 1)).drop j := by
    unfold moved
    rw [hbi]
  have hget : ∀ k, (moved blocks i j)[k]?
      = if k < j then (if k < i then blocks[k]? else blocks[k + 1]?)
        else if k = j then some b
        else (if k - 1 < i then blocks[k - 1]? else blocks[k - 1 + 1]?) := by
    intro k
    rw [hm, getElem?_inserted _ b j k (by omega), getElem?_removed, getElem?_removed]
  refine ⟨?_, ?_, ?_, ?_, ?_⟩
  · rw [hm]
    simp only [List.length_append, List.length_take, List.length_drop, List.length_singleton]
    omega
  · rw [hget, if_neg (lt_irrefl j), if_pos rfl, hbi]
  · rintro k (⟨h1, h2⟩ | ⟨h1, h2⟩)
    · rw [hget, if_pos h2, if_pos h1]
    · rw [hget, if_neg (by omega), if_neg (by omega), if_neg (by omega)]
      congr 1
      omega
  · intro k h1 h2
    rw [hget, if_pos h2, if_neg (by omega)]
  · intro k h1 h2
    rw [hget, if_neg (by omega), if_neg (by omega)]
    by_cases h3 : k - 1 < i
    · rw [if_pos h3]
    · exact absurd (show k - 1 < i by omega) h3

/-- C9 (amended): with pairwise distinct ids, `fromId` at position `i` and a
different `toId` at position `j`, `reorder(fromId, toId)` takes the dragged
block out and puts it back at position `j`: the dragged block ends at the
position the target block had, the blocks before both positions and after both
positions keep their position, and each block from the target to the dragged
block's neighbour moves one position towards the place the dragged block
left. -/
theorem reorder_moves_block (blocks : List EditorBlock) (fromId toId : Str) (i j : Nat)
    (hnd : (blocks.map (fun b => b.id)).Nodup)
    (hfrom : (blocks[i]?).map (fun b => b.id) = some fromId)
    (hto : (blocks[j]?).map (fun b => b.id) = some toId)
    (hne : fromId ≠ toId) :
    ∃ out : List EditorBlock,
      reorder blocks fromId toId = out.map some ∧
      out.length = blocks.length ∧
      out[j]? = blocks[i]? ∧
      (∀ k, (k < i ∧ k < j) ∨ (i < k ∧ j < k) → out[k]? = blocks[k]?) ∧
      (∀ k, i ≤ k → k < j → out[k]? = blocks[k + 1]?) ∧
      (∀ k, j < k → k ≤ i → out[k]? = blocks[k - 1]?) := by
  obtain ⟨bi, hbi, _⟩ := Option.map_eq_some'.mp hfrom
  obtain ⟨bj, hbj, _⟩ := Option.map_eq_some'.mp hto
  have hj : j < blocks.length := (List.getElem?_eq_some_iff.mp hbj).1
  exact ⟨moved blocks i j, reorder_eq_moved blocks fromId toId i j hnd hfrom hto hne,
    moved_positions blocks i j bi hbi hj⟩

/-- Witness of C9 (amended): dragging `a` onto `c` in `a, b, c`. -/
theorem reorder_moves_block_witness :
    (threeBlocks.map (fun b => b.id)).Nodup ∧
    (threeBlocks[0]?).map (fun b => b.id) = some "a".toList ∧
    (threeBlocks[2]?).map (fun b => b.id) = some "c".toList ∧
    "a".toList ≠ "c".toList ∧
    ∃ out : List EditorBlock,
      reorder threeBlocks "a".toList "c".toList = out.map some ∧
      out.length = threeBlocks.length ∧
      out[2]? = threeBlocks[0]? ∧
      (∀ k, (k < 0 ∧ k < 2) ∨ (0 < k ∧ 2 < k) → out[k]? = threeBlocks[k]?) ∧
      (∀ k, 0 ≤ k → k < 2 → out[k]? = threeBlocks[k + 1]?) ∧
      (∀ k, 2 < k → k ≤ 0 → out[k]? = threeBlocks[k - 1]?) :=
  ⟨by decide, rfl, rfl, by decide,
    reorder_moves_block threeBlocks "a".toList "c".toList 0 2 (by decide) rfl rfl (by decide)⟩

/-- C9, as stated, fails: dragging `a` onto `c` in `a, b, c` gives `b, c, a`,
which is not the list with `a` and `c` exchanged: the target `c` is at position
1, and `b` has moved to position 0. -/
theorem reorder_is_not_swap :
    (threeBlocks.map (fun b => b.id)).Nodup ∧
    reorder threeBlocks "a".toList "c".toList
      = [threeBlocks[1]?, threeBlocks[2]?, threeBlocks[0]?] ∧
    ¬ ∃ out : List EditorBlock,
        reorder threeBlocks "a".toList "c".toList = out.map some ∧ IsSwap threeBlocks out 0 2 := by
  refine ⟨by decide, by decide, ?_⟩
  rintro ⟨out, hout, hswap⟩
  have h0 : (reorder threeBlocks "a".toList "c".toList)[0]? = some threeBlocks[1]? := by decide
  rw [hout, List.getElem?_map, hswap.2.1] at h0
  exact absurd h0 (by decide)

end SiteBuilder
